import Mathlib

/-!
Verification of the mpl-core permission-validation and compression-integrity
engine (`programs/mpl-core/src/utils.rs`) against its specification.

The functions of `utils.rs` are embedded shallowly below.  Types and helper
functions that live in the repository's `state/` and `plugins/` modules (not
part of the provided sources, except `permanent_burn.rs`) are modelled from
the specification; each such definition carries a doc comment starting with
"Modelled from the spec:".
-/

/-- Decidable equality for fallible results, so that concrete runs of the
embedded operations can be checked by `decide`. -/
instance {ε α : Type} [DecidableEq ε] [DecidableEq α] : DecidableEq (Except ε α) := fun a b =>
  match a, b with
  | Except.ok x, Except.ok y =>
    if h : x = y then isTrue (by rw [h]) else isFalse (by simp [h])
  | Except.error x, Except.error y =>
    if h : x = y then isTrue (by rw [h]) else isFalse (by simp [h])
  | Except.ok _, Except.error _ => isFalse (by simp)
  | Except.error _, Except.ok _ => isFalse (by simp)

namespace MplCore

/-- Modelled from the spec: a 32-byte ledger identity (`Pubkey`), represented
as a natural number below 2^256. -/
abbrev Pubkey := Nat

/-- Modelled from the spec: error kinds of the engine (`MplCoreError`), which
is not part of the provided sources. -/
inductive Err where
  | invalidAuthority
  | invalidCollection
  | incorrectAssetHash
  | deserializationError
  | numericalOverflow
  | incorrectAccount
deriving DecidableEq

/-- Modelled from the spec: the one-byte layout discriminant (`Key`), which is
not part of the provided sources.  The spec names the discriminants for the
core object kinds, the compressed cell, and the plugin metadata region. -/
inductive Key where
  | uninitialized
  | asset
  | hashedAsset
  | pluginHeader
  | pluginRegistry
  | collection
deriving DecidableEq

/-- Modelled from the spec: the byte value of each layout discriminant. -/
def Key.toByte : Key → Nat
  | .uninitialized => 0
  | .asset => 1
  | .hashedAsset => 2
  | .pluginHeader => 3
  | .pluginRegistry => 4
  | .collection => 5

/-- Modelled from the spec: decoding a one-byte layout discriminant; any other
byte is a deserialization failure. -/
def Key.ofByte : Nat → Option Key
  | 0 => some .uninitialized
  | 1 => some .asset
  | 2 => some .hashedAsset
  | 3 => some .pluginHeader
  | 4 => some .pluginRegistry
  | 5 => some .collection
  | _ => none

/-- Modelled from the spec: the closed `Authority` variant set — `None`
(nobody), `Owner`, `UpdateAuthority`, `Pubkey{address}`, `Permanent{address}`.
The type itself is not part of the provided sources. -/
inductive Authority where
  | none
  | owner
  | updateAuthority
  | pubkey (address : Pubkey)
  | permanent (address : Pubkey)
deriving DecidableEq

/-- Modelled from the spec: an Item's update authority is either absent, a
fixed address, or delegated to a parent collection.  The type is not part of
the provided sources; `utils.rs` matches on its `Address` and `Collection`
variants. -/
inductive UpdateAuthority where
  | none
  | address (p : Pubkey)
  | collection (p : Pubkey)
deriving DecidableEq

/-- Modelled from the spec: the identity carried by an update authority (the
`key` accessor used by `assert_authority`); the absent case maps to the
default all-zero identity. -/
def UpdateAuthority.key : UpdateAuthority → Pubkey
  | .none => 0
  | .address p => p
  | .collection p => p

/-- Modelled from the spec: `CheckResult` — whether an entity participates in
authorizing an operation kind.  Not part of the provided sources. -/
inductive CheckResult where
  | None
  | CanApprove
  | CanReject
deriving DecidableEq

/-- Modelled from the spec: `ValidationResult` — the per-caller verdict
(`Approved`/`Rejected`/`Pass`/`ForceApproved`).  Not part of the provided
sources. -/
inductive ValidationResult where
  | Approved
  | Rejected
  | Pass
  | ForceApproved
deriving DecidableEq

/-- Modelled from the spec: a plugin-type discriminant from a fixed
enumeration, represented by its numeric tag.  The enumeration itself is not
part of the provided sources. -/
abbrev PluginType := Nat

/-- Modelled from the spec: a plugin value.  Plugin serialization boilerplate
is declared out of scope by the spec; a plugin is modelled as its type tag
plus an opaque payload, serialized as one tag byte followed by a length-
prefixed payload. -/
structure Plugin where
  tag : Nat
  payload : List Nat
deriving DecidableEq

/-- Modelled from the spec: a registry record `{plugin_type, offset,
authority}`; offsets are absolute byte positions into the storage cell. -/
structure RegistryRecord where
  pluginType : PluginType
  offset : Nat
  authority : Authority
deriving DecidableEq

/-- Modelled from the spec: plugin metadata header — a pointer to where the
registry lives. -/
structure PluginHeader where
  key : Key
  pluginRegistryOffset : Nat
deriving DecidableEq

/-- Modelled from the spec: the plugin registry — the ordered record list. -/
structure PluginRegistry where
  key : Key
  registry : List RegistryRecord
deriving DecidableEq

/-- Modelled from the spec: the Item core object; `owner`, `update_authority`,
a layout discriminant, and type-specific payload (name/uri), the latter
modelled as a length-prefixed byte list. -/
structure Asset where
  key : Key
  owner : Pubkey
  updateAuthority : UpdateAuthority
  payload : List Nat
deriving DecidableEq

/-- Modelled from the spec: the Collection core object; `update_authority`, a
layout discriminant, and type-specific payload modelled as a length-prefixed
byte list (a collection has no owner field). -/
structure Collection where
  key : Key
  updateAuthority : Pubkey
  payload : List Nat
deriving DecidableEq

/-- Modelled from the spec: the compressed on-storage form — a discriminant
plus a single 32-byte digest. -/
structure HashedAsset where
  key : Key
  hash : Nat
deriving DecidableEq

/-- Modelled from the spec: `{index, authority, plugin}` — a plugin together
with its original registry index and authority, as hashed and carried in a
compression proof. -/
structure HashablePluginSchema where
  index : Nat
  authority : Authority
  plugin : Plugin
deriving DecidableEq

/-- Modelled from the spec: the preimage of the commitment digest —
`hash(object)` together with the ordered list of plugin hashes. -/
structure HashedAssetSchema where
  assetHash : Nat
  pluginHashes : List Nat
deriving DecidableEq

/-- Modelled from the spec: a caller-supplied plaintext reconstruction of
the core object and its ordered plugin list with per-plugin authorities. -/
structure CompressionProof where
  asset : Asset
  plugins : List HashablePluginSchema
deriving DecidableEq

/-- Modelled from the spec: `CompressionProof::new` pairs the core object with
an initial plugin list. -/
def CompressionProof.new (asset : Asset) (plugins : List HashablePluginSchema) :
    CompressionProof :=
  ⟨asset, plugins⟩

/-- Modelled from the spec: `Asset::from(CompressionProof)` extracts the core
object carried by the proof. -/
def Asset.ofProof (proof : CompressionProof) : Asset :=
  proof.asset

/-- A storage cell: its address and its byte contents. -/
structure AccountInfo where
  key : Pubkey
  data : List Nat
deriving DecidableEq

/-! ### Byte-level serialization

Modelled from the spec: the persisted layout is bit-exact, little-endian, no
padding — `[1-byte discriminant][fields…]`; a compressed cell is
`[1-byte discriminant][32-byte digest]`.  The serialization code itself (borsh
derivations in `state/` and `plugins/`) is not part of the provided sources.
-/

/-- Little-endian encoding of `n` into `w` bytes. -/
def natToLE : Nat → Nat → List Nat
  | 0, _ => []
  | w + 1, n => n % 256 :: natToLE w (n / 256)

/-- Little-endian decoding of a byte list (each element reduced mod 256). -/
def leToNat : List Nat → Nat
  | [] => 0
  | b :: t => b % 256 + 256 * leToNat t

/-- Parse a `w`-byte little-endian fixed-width integer. -/
def parseLE (w : Nat) (bs : List Nat) : Option (Nat × List Nat) :=
  if w ≤ bs.length then some (leToNat (bs.take w), bs.drop w) else none

/-- Parse a one-byte layout discriminant. -/
def parseKey : List Nat → Option (Key × List Nat)
  | [] => none
  | b :: t => match Key.ofByte b with
    | some k => some (k, t)
    | none => none

/-- Modelled from the spec: `Authority` serialization — a tag byte, plus a
32-byte address for the `Pubkey` and `Permanent` variants. -/
def Authority.serialize : Authority → List Nat
  | .none => [0]
  | .owner => [1]
  | .updateAuthority => [2]
  | .pubkey a => 3 :: natToLE 32 a
  | .permanent a => 4 :: natToLE 32 a

/-- Modelled from the spec: `Authority` deserialization. -/
def Authority.parse : List Nat → Option (Authority × List Nat)
  | [] => Option.none
  | 0 :: t => some (.none, t)
  | 1 :: t => some (.owner, t)
  | 2 :: t => some (.updateAuthority, t)
  | 3 :: t => (parseLE 32 t).map fun (a, rest) => (.pubkey a, rest)
  | 4 :: t => (parseLE 32 t).map fun (a, rest) => (.permanent a, rest)
  | _ :: _ => Option.none

/-- Modelled from the spec: `UpdateAuthority` serialization — a tag byte plus
a 32-byte address for the `address`/`collection` variants. -/
def UpdateAuthority.serialize : UpdateAuthority → List Nat
  | .none => [0]
  | .address p => 1 :: natToLE 32 p
  | .collection p => 2 :: natToLE 32 p

/-- Modelled from the spec: `UpdateAuthority` deserialization. -/
def UpdateAuthority.parse : List Nat → Option (UpdateAuthority × List Nat)
  | [] => Option.none
  | 0 :: t => some (.none, t)
  | 1 :: t => (parseLE 32 t).map fun (p, rest) => (.address p, rest)
  | 2 :: t => (parseLE 32 t).map fun (p, rest) => (.collection p, rest)
  | _ :: _ => Option.none

/-- Modelled from the spec: a length-prefixed raw byte list (u32 length). -/
def serializeBytes (bs : List Nat) : List Nat :=
  natToLE 4 bs.length ++ bs.map (· % 256)

/-- Modelled from the spec: parse a length-prefixed raw byte list. -/
def parseBytes (bs : List Nat) : Option (List Nat × List Nat) :=
  match parseLE 4 bs with
  | some (n, rest) =>
    if n ≤ rest.length then some (rest.take n, rest.drop n) else none
  | none => none

/-- Modelled from the spec: plugin serialization — one tag byte followed by a
length-prefixed payload (plugin-specific formats are out of scope). -/
def Plugin.serialize (p : Plugin) : List Nat :=
  p.tag % 256 :: serializeBytes p.payload

/-- Modelled from the spec: plugin deserialization. -/
def Plugin.parse : List Nat → Option (Plugin × List Nat)
  | [] => none
  | b :: t => (parseBytes t).map fun (payload, rest) => (⟨b, payload⟩, rest)

/-- Modelled from the spec: `Asset` serialization — discriminant, owner,
update authority, payload. -/
def Asset.serialize (a : Asset) : List Nat :=
  a.key.toByte :: (natToLE 32 a.owner ++ a.updateAuthority.serialize ++ serializeBytes a.payload)

/-- Modelled from the spec: `Asset` deserialization. -/
def Asset.parse (bs : List Nat) : Option (Asset × List Nat) :=
  match parseKey bs with
  | none => none
  | some (k, r1) =>
    match parseLE 32 r1 with
    | none => none
    | some (owner, r2) =>
      match UpdateAuthority.parse r2 with
      | none => none
      | some (ua, r3) =>
        match parseBytes r3 with
        | none => none
        | some (payload, r4) => some (⟨k, owner, ua, payload⟩, r4)

/-- Modelled from the spec: `Collection` serialization — discriminant, update
authority, payload. -/
def Collection.serialize (c : Collection) : List Nat :=
  c.key.toByte :: (natToLE 32 c.updateAuthority ++ serializeBytes c.payload)

/-- Modelled from the spec: `Collection` deserialization. -/
def Collection.parse (bs : List Nat) : Option (Collection × List Nat) :=
  match parseKey bs with
  | none => none
  | some (k, r1) =>
    match parseLE 32 r1 with
    | none => none
    | some (ua, r2) =>
      match parseBytes r2 with
      | none => none
      | some (payload, r3) => some (⟨k, ua, payload⟩, r3)

/-- Modelled from the spec: `PluginHeader` serialization — discriminant plus
the 8-byte registry offset. -/
def PluginHeader.serialize (h : PluginHeader) : List Nat :=
  h.key.toByte :: natToLE 8 h.pluginRegistryOffset

/-- Modelled from the spec: `PluginHeader` deserialization. -/
def PluginHeader.parse (bs : List Nat) : Option (PluginHeader × List Nat) :=
  match parseKey bs with
  | none => none
  | some (k, r1) =>
    match parseLE 8 r1 with
    | none => none
    | some (off, r2) => some (⟨k, off⟩, r2)

/-- Modelled from the spec: `RegistryRecord` serialization — plugin type byte,
8-byte offset, authority. -/
def RegistryRecord.serialize (r : RegistryRecord) : List Nat :=
  r.pluginType % 256 :: (natToLE 8 r.offset ++ r.authority.serialize)

/-- Modelled from the spec: `RegistryRecord` deserialization. -/
def RegistryRecord.parse : List Nat → Option (RegistryRecord × List Nat)
  | [] => none
  | b :: t =>
    match parseLE 8 t with
    | none => none
    | some (off, r1) =>
      match Authority.parse r1 with
      | none => none
      | some (auth, r2) => some (⟨b, off, auth⟩, r2)

/-- Modelled from the spec: parse `n` consecutive registry records. -/
def parseRecords : Nat → List Nat → Option (List RegistryRecord × List Nat)
  | 0, bs => some ([], bs)
  | n + 1, bs =>
    match RegistryRecord.parse bs with
    | none => none
    | some (r, rest) =>
      match parseRecords n rest with
      | none => none
      | some (rs, rest2) => some (r :: rs, rest2)

/-- Modelled from the spec: `PluginRegistry` serialization — discriminant plus
the u32-length-prefixed record list. -/
def PluginRegistry.serialize (pr : PluginRegistry) : List Nat :=
  pr.key.toByte :: (natToLE 4 pr.registry.length ++ pr.registry.flatMap RegistryRecord.serialize)

/-- Modelled from the spec: `PluginRegistry` deserialization. -/
def PluginRegistry.parse (bs : List Nat) : Option (PluginRegistry × List Nat) :=
  match parseKey bs with
  | none => none
  | some (k, r1) =>
    match parseLE 4 r1 with
    | none => none
    | some (n, r2) =>
      match parseRecords n r2 with
      | none => none
      | some (rs, r3) => some (⟨k, rs⟩, r3)

/-- Modelled from the spec: `HashedAsset` serialization — discriminant plus
the 32-byte digest. -/
def HashedAsset.serialize (h : HashedAsset) : List Nat :=
  h.key.toByte :: natToLE 32 h.hash

/-- Modelled from the spec: `HashedAsset` deserialization. -/
def HashedAsset.parse (bs : List Nat) : Option (HashedAsset × List Nat) :=
  match parseKey bs with
  | none => none
  | some (k, r1) =>
    match parseLE 32 r1 with
    | none => none
    | some (h, r2) => some (⟨k, h⟩, r2)

/-! ### Hashing

Modelled from the spec: the commitment digest is a 32-byte cryptographic hash
(`digest = hash(hash(core object) ‖ ordered list of hash(plugin_i))`).  The
host's keccak function is not part of the provided sources; it is modelled as
a concrete stand-in digest on byte lists with values below 2^256.  None of the
claims proved here relies on collision resistance.
-/

/-- Modelled from the spec: stand-in for the host's 32-byte digest function. -/
def hashBytes (bs : List Nat) : Nat :=
  bs.foldl (fun acc b => (acc * 257 + b % 256 + 1) % 2 ^ 256) 0

/-- Modelled from the spec: `Asset::hash` — digest of the serialized object. -/
def Asset.hash (a : Asset) : Nat :=
  hashBytes a.serialize

/-- Modelled from the spec: serialization of a hashable plugin schema (8-byte
index, authority, plugin). -/
def HashablePluginSchema.serialize (s : HashablePluginSchema) : List Nat :=
  natToLE 8 s.index ++ s.authority.serialize ++ s.plugin.serialize

/-- Modelled from the spec: `HashablePluginSchema::hash`. -/
def HashablePluginSchema.hash (s : HashablePluginSchema) : Nat :=
  hashBytes s.serialize

/-- Modelled from the spec: serialization of the digest preimage — the asset
hash followed by the length-prefixed list of plugin hashes. -/
def HashedAssetSchema.serialize (s : HashedAssetSchema) : List Nat :=
  natToLE 32 s.assetHash ++ natToLE 4 s.pluginHashes.length
    ++ s.pluginHashes.flatMap (natToLE 32)

/-- Modelled from the spec: `HashedAssetSchema::hash` — the commitment
digest. -/
def HashedAssetSchema.hash (s : HashedAssetSchema) : Nat :=
  hashBytes s.serialize

/-! ### Account loading -/

/-- Modelled from the spec: the `SolanaAccount::load` capability — deserialize
a value of the given type from the cell's bytes starting at an offset. -/
class SolanaAccountC (α : Type) where
  parse : List Nat → Option (α × List Nat)

/-- Modelled from the spec: the `DataBlob::get_size` capability — a value's
own computed on-storage size. -/
class DataBlobC (α : Type) where
  getSize : α → Nat

instance : SolanaAccountC Asset := ⟨Asset.parse⟩
instance : SolanaAccountC Collection := ⟨Collection.parse⟩
instance : SolanaAccountC PluginHeader := ⟨PluginHeader.parse⟩
instance : SolanaAccountC PluginRegistry := ⟨PluginRegistry.parse⟩
instance : SolanaAccountC HashedAsset := ⟨HashedAsset.parse⟩
instance : SolanaAccountC Plugin := ⟨Plugin.parse⟩

instance : DataBlobC Asset := ⟨fun a => a.serialize.length⟩
instance : DataBlobC Collection := ⟨fun c => c.serialize.length⟩

/-- `SolanaAccount::load`: deserialize from the account data at an offset;
trailing bytes are permitted, failure is a `DeserializationError`. -/
def load (α : Type) [SolanaAccountC α] (account : AccountInfo) (offset : Nat) :
    Except Err α :=
  match SolanaAccountC.parse (α := α) (account.data.drop offset) with
  | some (x, _) => Except.ok x
  | none => Except.error Err.deserializationError

/-! ### Operations of `utils.rs` -/

/-- Modelled from the spec: the `CoreAsset` capability used by the generic
`assert_authority` — access to an object's owner and update authority. -/
class CoreAssetC (α : Type) where
  owner : α → Pubkey
  updateAuthority : α → UpdateAuthority

instance : CoreAssetC Asset := ⟨Asset.owner, Asset.updateAuthority⟩

/-- `assert_authority` (`utils.rs` lines 33-69): succeed iff the caller
matches the required authority variant; otherwise `InvalidAuthority`. -/
def assert_authority {α : Type} [CoreAssetC α] (asset : α)
    (authority_info : AccountInfo) (authorities : Authority) : Except Err Unit :=
  match authorities with
  | Authority.none => Except.error Err.invalidAuthority
  | Authority.owner =>
    if CoreAssetC.owner asset = authority_info.key then Except.ok ()
    else Except.error Err.invalidAuthority
  | Authority.updateAuthority =>
    if (CoreAssetC.updateAuthority asset).key = authority_info.key then Except.ok ()
    else Except.error Err.invalidAuthority
  | Authority.pubkey address =>
    if authority_info.key = address then Except.ok ()
    else Except.error Err.invalidAuthority
  | Authority.permanent address =>
    if authority_info.key = address then Except.ok ()
    else Except.error Err.invalidAuthority

/-- `assert_collection_authority` (`utils.rs` lines 72-97): `None` and `Owner`
fall through to `InvalidAuthority`; the other variants compare the caller. -/
def assert_collection_authority (asset : Collection) (authority_info : AccountInfo)
    (authority : Authority) : Except Err Unit :=
  match authority with
  | Authority.none => Except.error Err.invalidAuthority
  | Authority.owner => Except.error Err.invalidAuthority
  | Authority.updateAuthority =>
    if asset.updateAuthority = authority_info.key then Except.ok ()
    else Except.error Err.invalidAuthority
  | Authority.pubkey address =>
    if authority_info.key = address then Except.ok ()
    else Except.error Err.invalidAuthority
  | Authority.permanent address =>
    if authority_info.key = address then Except.ok ()
    else Except.error Err.invalidAuthority

/-- `fetch_core_data` (`utils.rs` lines 100-113): load the core object at
offset 0; if its own size differs from the stored length, additionally load
the plugin header at that size and the registry at the header's offset. -/
def fetch_core_data (α : Type) [SolanaAccountC α] [DataBlobC α] (account : AccountInfo) :
    Except Err (α × Option PluginHeader × Option PluginRegistry) :=
  match load α account 0 with
  | Except.error e => Except.error e
  | Except.ok asset =>
    if DataBlobC.getSize asset ≠ account.data.length then
      match load PluginHeader account (DataBlobC.getSize asset) with
      | Except.error e => Except.error e
      | Except.ok plugin_header =>
        match load PluginRegistry account plugin_header.pluginRegistryOffset with
        | Except.error e => Except.error e
        | Except.ok plugin_registry =>
          Except.ok (asset, some plugin_header, some plugin_registry)
    else Except.ok (asset, none, none)

/-- Comparator of `HashablePluginSchema::compare_indeces`: order schemas by
their recorded index (used through a stable sort). -/
def schemaLe (a b : HashablePluginSchema) : Prop :=
  a.index ≤ b.index

instance : DecidableRel schemaLe := fun a b => Nat.decLe a.index b.index

instance : IsTotal HashablePluginSchema schemaLe :=
  ⟨fun a b => Nat.le_total a.index b.index⟩

instance : IsTrans HashablePluginSchema schemaLe :=
  ⟨fun _ _ _ h1 h2 => Nat.le_trans h1 h2⟩

/-- Comparator of `RegistryRecord::compare_offsets`: order records by offset
(used through a stable sort). -/
def recordLe (a b : RegistryRecord) : Prop :=
  a.offset ≤ b.offset

instance : DecidableRel recordLe := fun a b => Nat.decLe a.offset b.offset

instance : IsTotal RegistryRecord recordLe :=
  ⟨fun a b => Nat.le_total a.offset b.offset⟩

instance : IsTrans RegistryRecord recordLe :=
  ⟨fun _ _ _ h1 h2 => Nat.le_trans h1 h2⟩

/-- Sorting the proof's plugin list by its recorded original index
(`sorted_plugins.sort_by(HashablePluginSchema::compare_indeces)`); the
stable sort of the source is modelled by insertion sort. -/
def sortedByIndex (l : List HashablePluginSchema) : List HashablePluginSchema :=
  l.insertionSort schemaLe

/-- The commitment digest `verify_proof` recomputes from a proof: digest of
the proof's object hash together with the hashes of its index-sorted
plugins. -/
def recomputedDigest (proof : CompressionProof) : Nat :=
  HashedAssetSchema.hash
    ⟨(Asset.ofProof proof).hash, (sortedByIndex proof.plugins).map HashablePluginSchema.hash⟩

/-- `verify_proof` (`utils.rs` lines 116-144): rebuild the asset from the
proof, recompute the commitment digest from the index-sorted plugin list,
and compare with the digest stored in the hashed-asset cell. -/
def verify_proof (hashed_asset : AccountInfo) (compression_proof : CompressionProof) :
    Except Err (Asset × List HashablePluginSchema) :=
  match load HashedAsset hashed_asset 0 with
  | Except.error e => Except.error e
  | Except.ok current =>
    if recomputedDigest compression_proof ≠ current.hash then
      Except.error Err.incorrectAssetHash
    else
      Except.ok (Asset.ofProof compression_proof, sortedByIndex compression_proof.plugins)

/-- Pair each list element with its position, starting at `i` (the
`enumerate()` of the compression loop). -/
def withIndices (i : Nat) : List α → List (Nat × α)
  | [] => []
  | a :: t => (i, a) :: withIndices (i + 1) t

/-- The compression loop of `compress_into_account_space`: for each
offset-sorted record (paired with its index), deserialize the plugin at the
record's offset and form `{index, authority, plugin}`. -/
def buildSchemas (asset_info : AccountInfo) :
    List (Nat × RegistryRecord) → Except Err (List HashablePluginSchema)
  | [] => Except.ok []
  | ir :: rest =>
    match load Plugin asset_info ir.2.offset with
    | Except.error e => Except.error e
    | Except.ok plugin =>
      match buildSchemas asset_info rest with
      | Except.error e => Except.error e
      | Except.ok tail => Except.ok (⟨ir.1, ir.2.authority, plugin⟩ :: tail)

/-- The registry records in ascending offset order, as re-established by the
compression loop ("it should already be sorted but we just want to make
sure"). -/
def sortedRegistryRecords : Option PluginRegistry → List RegistryRecord
  | some pr => pr.registry.insertionSort recordLe
  | none => []

/-- `compress_into_account_space` (`utils.rs` lines 399-448): hash the asset,
deserialize each registry record's plugin in ascending offset order and hash
the resulting `{index, authority, plugin}` schemas, commit the combined
digest by overwriting the cell with the serialized hashed-asset record, and
return the full proof.  The rent/lamport rebalancing of the resize step is
outside the storage model; the resize itself is the replacement of the cell's
bytes. -/
def compress_into_account_space (asset : Asset) (plugin_registry : Option PluginRegistry)
    (asset_info : AccountInfo) : Except Err (CompressionProof × AccountInfo) :=
  let asset_hash := asset.hash
  match buildSchemas asset_info (withIndices 0 (sortedRegistryRecords plugin_registry)) with
  | Except.error e => Except.error e
  | Except.ok schemas =>
    let plugin_hashes := schemas.map HashablePluginSchema.hash
    let hashed_asset_schema : HashedAssetSchema := ⟨asset_hash, plugin_hashes⟩
    let hashed_asset : HashedAsset := ⟨Key.hashedAsset, hashed_asset_schema.hash⟩
    let compression_proof := CompressionProof.new asset schemas
    Except.ok (compression_proof, { asset_info with data := hashed_asset.serialize })

/-- `resolve_to_authority` (`utils.rs` lines 450-482): owner first, then the
asset's own update-authority address, then the parent collection's update
authority (requiring a matching collection account), else the plain caller
key. -/
def resolve_to_authority (authority_info : AccountInfo)
    (maybe_collection_info : Option AccountInfo) (asset : Asset) : Except Err Authority :=
  if authority_info.key = asset.owner then Except.ok Authority.owner
  else if asset.updateAuthority = UpdateAuthority.address authority_info.key then
    Except.ok Authority.updateAuthority
  else
    match asset.updateAuthority with
    | UpdateAuthority.collection collection_address =>
      match maybe_collection_info with
      | some collection_info =>
        if collection_info.key ≠ collection_address then
          Except.error Err.invalidCollection
        else
          match load Collection collection_info 0 with
          | Except.error e => Except.error e
          | Except.ok collection =>
            if authority_info.key = collection.updateAuthority then
              Except.ok Authority.updateAuthority
            else Except.ok (Authority.pubkey authority_info.key)
      | none => Except.error Err.invalidCollection
    | _ => Except.ok (Authority.pubkey authority_info.key)

/-- `PermanentBurn::validate_burn` (`permanent_burn.rs` lines 45-58): force
approval when the resolved authority equals the plugin's authority, else
pass. -/
def PermanentBurn.validate_burn (_authority : AccountInfo) (authorities : Authority)
    (resolved_authority : Option Authority) : Except Err ValidationResult :=
  match resolved_authority with
  | some resolved =>
    if resolved = authorities then Except.ok ValidationResult.ForceApproved
    else Except.ok ValidationResult.Pass
  | none => Except.ok ValidationResult.Pass

/-! ### Permission validation engine -/

/-- One entry of the merge map `checks`, keyed by plugin type: the attributed
source (`Key`), the participation result, and the registry record. -/
structure CheckEntry where
  pluginType : PluginType
  source : Key
  result : CheckResult
  record : RegistryRecord
deriving DecidableEq

/-- Insertion into the ordered merge map: keep entries sorted by plugin type,
replacing any existing entry with the same plugin type (the `BTreeMap.insert`
of the source). -/
def insertEntry (e : CheckEntry) : List CheckEntry → List CheckEntry
  | [] => [e]
  | f :: rest =>
    if e.pluginType < f.pluginType then e :: f :: rest
    else if e.pluginType = f.pluginType then e :: rest
    else f :: insertEntry e rest

/-- Modelled from the spec: `PluginRegistry::check_registry` (not part of the
provided sources) — walk the registry and, for every record whose
participation check is not `None`, record `(source, CheckResult, record)`
keyed by plugin type into the merge map. -/
def check_registry (pr : PluginRegistry) (source : Key)
    (plugin_check_fp : PluginType → CheckResult) (checks : List CheckEntry) :
    List CheckEntry :=
  pr.registry.foldl
    (fun acc record =>
      match plugin_check_fp record.pluginType with
      | CheckResult.None => acc
      | c => insertEntry ⟨record.pluginType, source, c, record⟩ acc)
    checks

/-- The core check of `validate_asset_permissions` (lines 231-236): the asset
participation result overrides the collection one; on `None` fall back to the
collection participation function and attribute the check to the
collection. -/
def coreCheckOf (asset_check_fp collection_check_fp : Unit → CheckResult) :
    Key × CheckResult :=
  match asset_check_fp () with
  | CheckResult.None => (Key.collection, collection_check_fp ())
  | r => (Key.asset, r)

/-- Building the merge map in `validate_asset_permissions` (lines 238-252):
collection plugins first (when a collection account is supplied and carries a
registry), then the asset's own registry, whose entries shadow collection
entries of the same plugin type. -/
def buildAssetChecks (collection : Option AccountInfo)
    (asset_registry : Option PluginRegistry)
    (plugin_check_fp : PluginType → CheckResult) : Except Err (List CheckEntry) :=
  match collection with
  | some collection_info =>
    match fetch_core_data Collection collection_info with
    | Except.error e => Except.error e
    | Except.ok (_, _, registry) =>
      let checks :=
        match registry with
        | some r => check_registry r Key.collection plugin_check_fp []
        | none => []
      Except.ok
        (match asset_registry with
         | some r => check_registry r Key.asset plugin_check_fp checks
         | none => checks)
  | none =>
    Except.ok
      (match asset_registry with
       | some r => check_registry r Key.asset plugin_check_fp []
       | none => [])

/-- The account a plugin check of the given scope is loaded from: the
collection account for collection-scoped checks (required), the asset account
for asset-scoped checks. -/
def pluginAccount (key : Key) (asset : AccountInfo) (collection : Option AccountInfo) :
    Except Err AccountInfo :=
  match key with
  | Key.collection =>
    match collection with
    | some collection_info => Except.ok collection_info
    | none => Except.error Err.invalidCollection
  | Key.asset => Except.ok asset
  | _ => Except.error Err.incorrectAccount

/-- Whether a merge-map entry participates in the pass for scope `key`. -/
def invokedFor (key : Key) (e : CheckEntry) : Prop :=
  e.source = key ∧ (e.result = CheckResult.CanApprove ∨ e.result = CheckResult.CanReject)

instance (key : Key) (e : CheckEntry) : Decidable (invokedFor key e) :=
  inferInstanceAs (Decidable (_ ∧ _))

/-- The verdict obtained for one merge-map entry in the pass for scope `key`:
load the plugin at the record's offset from the scope's account and run the
plugin validator with the record's authority. -/
def entryVerdict (key : Key) (asset : AccountInfo) (collection : Option AccountInfo)
    (authority : AccountInfo) (new_owner : Option AccountInfo)
    (plugin_validate_fp :
      Plugin → AccountInfo → Option AccountInfo → Authority → Except Err ValidationResult)
    (e : CheckEntry) : Except Err ValidationResult :=
  match pluginAccount key asset collection with
  | Except.error err => Except.error err
  | Except.ok account =>
    match load Plugin account e.record.offset with
    | Except.error err => Except.error err
    | Except.ok plugin => plugin_validate_fp plugin authority new_owner e.record.authority

/-- Modelled from the spec: the evaluation loop of `validate_plugin_checks`
(not part of the provided sources) over the merge map, restricted to entries
attributed to scope `key`: any `Rejected` verdict is an immediate
`InvalidAuthority` failure; `Approved` sets the running flag, and
`ForceApproved` also unconditionally sets the flag; `Pass` leaves it. -/
def validatePluginChecksGo (key : Key) (asset : AccountInfo)
    (collection : Option AccountInfo) (authority : AccountInfo)
    (new_owner : Option AccountInfo)
    (plugin_validate_fp :
      Plugin → AccountInfo → Option AccountInfo → Authority → Except Err ValidationResult)
    (approved : Bool) : List CheckEntry → Except Err Bool
  | [] => Except.ok approved
  | e :: rest =>
    if invokedFor key e then
      match entryVerdict key asset collection authority new_owner plugin_validate_fp e with
      | Except.error err => Except.error err
      | Except.ok ValidationResult.Rejected => Except.error Err.invalidAuthority
      | Except.ok ValidationResult.Approved =>
        validatePluginChecksGo key asset collection authority new_owner
          plugin_validate_fp true rest
      | Except.ok ValidationResult.ForceApproved =>
        validatePluginChecksGo key asset collection authority new_owner
          plugin_validate_fp true rest
      | Except.ok ValidationResult.Pass =>
        validatePluginChecksGo key asset collection authority new_owner
          plugin_validate_fp approved rest
    else
      validatePluginChecksGo key asset collection authority new_owner
        plugin_validate_fp approved rest

/-- Modelled from the spec: `validate_plugin_checks` (not part of the provided
sources) — evaluate every merge-map entry of the given scope and reduce to
whether any of them approved. -/
def validate_plugin_checks (key : Key) (checks : List CheckEntry)
    (authority : AccountInfo) (new_owner : Option AccountInfo) (asset : AccountInfo)
    (collection : Option AccountInfo)
    (plugin_validate_fp :
      Plugin → AccountInfo → Option AccountInfo → Authority → Except Err ValidationResult) :
    Except Err Bool :=
  validatePluginChecksGo key asset collection authority new_owner plugin_validate_fp
    false checks

/-- The core validation of `validate_asset_permissions` (lines 256-272): when
the core check participates, reload the attributed object and run its
validator; the flag is set only by an `Approved` verdict.  A collection-
attributed check requires the collection account (`InvalidCollection`). -/
def coreValidation (core_check : Key × CheckResult) (authority : AccountInfo)
    (asset : AccountInfo) (collection : Option AccountInfo)
    (asset_validate_fp : Asset → AccountInfo → Except Err ValidationResult)
    (collection_validate_fp : Collection → AccountInfo → Except Err ValidationResult) :
    Except Err Bool :=
  if (core_check.1 = Key.asset ∨ core_check.1 = Key.collection) ∧
      (core_check.2 = CheckResult.CanApprove ∨ core_check.2 = CheckResult.CanReject) then
    match core_check.1 with
    | Key.collection =>
      match collection with
      | none => Except.error Err.invalidCollection
      | some collection_info =>
        match load Collection collection_info 0 with
        | Except.error e => Except.error e
        | Except.ok c =>
          match collection_validate_fp c authority with
          | Except.error e => Except.error e
          | Except.ok v => Except.ok (v = ValidationResult.Approved)
    | Key.asset =>
      match load Asset asset 0 with
      | Except.error e => Except.error e
      | Except.ok a =>
        match asset_validate_fp a authority with
        | Except.error e => Except.error e
        | Except.ok v => Except.ok (v = ValidationResult.Approved)
    | _ => Except.error Err.incorrectAccount
  else Except.ok false

/-- `validate_asset_permissions` (`utils.rs` lines 210-300): fetch the asset's
core data, compute the core check, merge collection-then-asset plugin
participation, run the core validation, then the collection-scoped and
asset-scoped plugin passes; fail with `InvalidAuthority` unless some
contributing check approved. -/
def validate_asset_permissions (authority : AccountInfo) (asset : AccountInfo)
    (collection : Option AccountInfo) (new_owner : Option AccountInfo)
    (asset_check_fp collection_check_fp : Unit → CheckResult)
    (plugin_check_fp : PluginType → CheckResult)
    (asset_validate_fp : Asset → AccountInfo → Except Err ValidationResult)
    (collection_validate_fp : Collection → AccountInfo → Except Err ValidationResult)
    (plugin_validate_fp :
      Plugin → AccountInfo → Option AccountInfo → Authority → Except Err ValidationResult) :
    Except Err (Asset × Option PluginHeader × Option PluginRegistry) :=
  match fetch_core_data Asset asset with
  | Except.error e => Except.error e
  | Except.ok fetched =>
    let core_check := coreCheckOf asset_check_fp collection_check_fp
    match buildAssetChecks collection fetched.2.2 plugin_check_fp with
    | Except.error e => Except.error e
    | Except.ok checks =>
      match coreValidation core_check authority asset collection asset_validate_fp
          collection_validate_fp with
      | Except.error e => Except.error e
      | Except.ok approved0 =>
        match validate_plugin_checks Key.collection checks authority new_owner asset
            collection plugin_validate_fp with
        | Except.error e => Except.error e
        | Except.ok b1 =>
          match validate_plugin_checks Key.asset checks authority new_owner asset
              collection plugin_validate_fp with
          | Except.error e => Except.error e
          | Except.ok b2 =>
            if b2 || (b1 || approved0) then Except.ok fetched
            else Except.error Err.invalidAuthority

/-- The core step of `validate_collection_permissions` (lines 321-333): when
the collection check participates, run the collection validator on the
fetched collection; `Approved` sets the flag, `Rejected` aborts with
`InvalidAuthority`.  The source match carries arms for `Approved`, `Rejected`
and `Pass` only; any other verdict leaves the flag unchanged, like `Pass`. -/
def collectionCoreStep (collection_check_fp : Unit → CheckResult)
    (collection_validate_fp : Collection → AccountInfo → Except Err ValidationResult)
    (deserialized_collection : Collection) (authority : AccountInfo) : Except Err Bool :=
  match collection_check_fp () with
  | CheckResult.CanApprove | CheckResult.CanReject =>
    match collection_validate_fp deserialized_collection authority with
    | Except.error e => Except.error e
    | Except.ok ValidationResult.Approved => Except.ok true
    | Except.ok ValidationResult.Rejected => Except.error Err.invalidAuthority
    | Except.ok _ => Except.ok false
  | CheckResult.None => Except.ok false

/-- Whether a registry record participates in the collection plugin loop. -/
def invokedRecord (plugin_check_fp : PluginType → CheckResult) (record : RegistryRecord) :
    Prop :=
  plugin_check_fp record.pluginType = CheckResult.CanApprove ∨
    plugin_check_fp record.pluginType = CheckResult.CanReject

instance (pcf : PluginType → CheckResult) (record : RegistryRecord) :
    Decidable (invokedRecord pcf record) :=
  inferInstanceAs (Decidable (_ ∨ _))

/-- The verdict for one registry record in the collection plugin loop: load
the plugin at the record's offset from the collection account and run the
plugin validator with no new owner and the record's authority. -/
def recordVerdict (collection : AccountInfo) (authority : AccountInfo)
    (plugin_validate_fp :
      Plugin → AccountInfo → Option AccountInfo → Authority → Except Err ValidationResult)
    (record : RegistryRecord) : Except Err ValidationResult :=
  match load Plugin collection record.offset with
  | Except.error e => Except.error e
  | Except.ok plugin => plugin_validate_fp plugin authority none record.authority

/-- The plugin loop of `validate_collection_permissions` (lines 335-354): for
every participating record, `Rejected` aborts with `InvalidAuthority` and
`Approved` sets the flag; any other verdict (including `ForceApproved`)
leaves the flag unchanged. -/
def collectionPluginLoop (collection : AccountInfo) (authority : AccountInfo)
    (plugin_check_fp : PluginType → CheckResult)
    (plugin_validate_fp :
      Plugin → AccountInfo → Option AccountInfo → Authority → Except Err ValidationResult)
    (approved : Bool) : List RegistryRecord → Except Err Bool
  | [] => Except.ok approved
  | record :: rest =>
    if invokedRecord plugin_check_fp record then
      match recordVerdict collection authority plugin_validate_fp record with
      | Except.error e => Except.error e
      | Except.ok v =>
        if v = ValidationResult.Rejected then Except.error Err.invalidAuthority
        else if v = ValidationResult.Approved then
          collectionPluginLoop collection authority plugin_check_fp plugin_validate_fp
            true rest
        else
          collectionPluginLoop collection authority plugin_check_fp plugin_validate_fp
            approved rest
    else
      collectionPluginLoop collection authority plugin_check_fp plugin_validate_fp
        approved rest

/-- `validate_collection_permissions` (`utils.rs` lines 303-361): fetch the
collection's core data, run the core step, then the plugin loop over the
collection's own registry; fail with `InvalidAuthority` unless some
contributing check approved. -/
def validate_collection_permissions (authority : AccountInfo) (collection : AccountInfo)
    (collection_check_fp : Unit → CheckResult)
    (plugin_check_fp : PluginType → CheckResult)
    (collection_validate_fp : Collection → AccountInfo → Except Err ValidationResult)
    (plugin_validate_fp :
      Plugin → AccountInfo → Option AccountInfo → Authority → Except Err ValidationResult) :
    Except Err (Collection × Option PluginHeader × Option PluginRegistry) :=
  match fetch_core_data Collection collection with
  | Except.error e => Except.error e
  | Except.ok fetched =>
    match collectionCoreStep collection_check_fp collection_validate_fp fetched.1
        authority with
    | Except.error e => Except.error e
    | Except.ok approved0 =>
      match
        (match fetched.2.2 with
         | some plugin_registry =>
           collectionPluginLoop collection authority plugin_check_fp plugin_validate_fp
             approved0 plugin_registry.registry
         | none => Except.ok approved0) with
      | Except.error e => Except.error e
      | Except.ok approved =>
        if approved then Except.ok fetched
        else Except.error Err.invalidAuthority

/-! ### Claim C7 -/

/-- Stated from the spec's words, for comparison with `assert_authority`:
which callers match each required authority variant — `Owner` the asset's
owner, `UpdateAuthority` the asset's update-authority key, `Pubkey` and
`Permanent` their embedded address, `None` nobody. -/
def assertMatches (asset : Asset) (caller : AccountInfo) : Authority → Prop
  | Authority.none => False
  | Authority.owner => asset.owner = caller.key
  | Authority.updateAuthority => asset.updateAuthority.key = caller.key
  | Authority.pubkey address => caller.key = address
  | Authority.permanent address => caller.key = address

instance (asset : Asset) (caller : AccountInfo) :
    (auth : Authority) → Decidable (assertMatches asset caller auth)
  | Authority.none => inferInstanceAs (Decidable False)
  | Authority.owner => inferInstanceAs (Decidable (_ = _))
  | Authority.updateAuthority => inferInstanceAs (Decidable (_ = _))
  | Authority.pubkey _ => inferInstanceAs (Decidable (_ = _))
  | Authority.permanent _ => inferInstanceAs (Decidable (_ = _))

/-- Claim C7: `assert_authority` succeeds exactly when the caller matches the
required authority variant — `Owner` iff the caller equals the asset's owner,
`UpdateAuthority` iff it equals the asset's update-authority key, `Pubkey`
and `Permanent` iff it equals the embedded address, and `None` matches no
caller — and every non-match fails with `InvalidAuthority`. -/
theorem c7_assert_authority_characterization (asset : Asset) (caller : AccountInfo)
    (auth : Authority) :
    assert_authority asset caller auth =
      if assertMatches asset caller auth then Except.ok ()
      else Except.error Err.invalidAuthority := by
  cases auth <;> rfl

/-! ### Claim C10 -/

/-- Claim C10: `assert_collection_authority` treats the `Owner` variant
exactly like `None` — it matches no caller and always fails with
`InvalidAuthority` — and only `UpdateAuthority`, `Pubkey` and `Permanent`
can ever succeed. -/
theorem c10_collection_owner_like_none (col : Collection) (caller : AccountInfo) :
    (assert_collection_authority col caller Authority.owner
        = Except.error Err.invalidAuthority ∧
      assert_collection_authority col caller Authority.owner
        = assert_collection_authority col caller Authority.none) ∧
    ∀ auth, assert_collection_authority col caller auth = Except.ok () →
      (auth = Authority.updateAuthority ∧ col.updateAuthority = caller.key) ∨
        auth = Authority.pubkey caller.key ∨ auth = Authority.permanent caller.key := by
  refine ⟨⟨rfl, rfl⟩, fun auth h => ?_⟩
  cases auth with
  | none => exact absurd h (by simp [assert_collection_authority])
  | owner => exact absurd h (by simp [assert_collection_authority])
  | updateAuthority =>
    left
    refine ⟨rfl, ?_⟩
    by_contra hne
    simp [assert_collection_authority, hne] at h
  | pubkey address =>
    right; left
    simp only [assert_collection_authority] at h
    split at h
    · simp_all
    · simp at h
  | permanent address =>
    right; right
    simp only [assert_collection_authority] at h
    split at h
    · simp_all
    · simp at h

/-! ### Claim C6 -/

/-- Claim C6: `resolve_to_authority` returns `Owner` when the caller equals
the asset's owner; otherwise `UpdateAuthority` when the caller equals the
asset's own update-authority address; otherwise, when the asset's update
authority is delegated to a parent collection, it fails with
`InvalidCollection` if the collection account is absent or its address
differs from the recorded parent, returns `UpdateAuthority` when the caller
equals that collection's update authority and `Pubkey{caller}` when not; in
every remaining case it returns `Pubkey{caller}`. -/
theorem c6_resolve_to_authority_cases (caller : AccountInfo) (ci : Option AccountInfo)
    (asset : Asset) :
    (caller.key = asset.owner →
      resolve_to_authority caller ci asset = Except.ok Authority.owner) ∧
    (caller.key ≠ asset.owner →
      asset.updateAuthority = UpdateAuthority.address caller.key →
      resolve_to_authority caller ci asset = Except.ok Authority.updateAuthority) ∧
    (∀ caddr, caller.key ≠ asset.owner →
      asset.updateAuthority = UpdateAuthority.collection caddr →
      (ci = none →
        resolve_to_authority caller ci asset = Except.error Err.invalidCollection) ∧
      (∀ c, ci = some c → c.key ≠ caddr →
        resolve_to_authority caller ci asset = Except.error Err.invalidCollection) ∧
      (∀ c col, ci = some c → c.key = caddr → load Collection c 0 = Except.ok col →
        (caller.key = col.updateAuthority →
          resolve_to_authority caller ci asset = Except.ok Authority.updateAuthority) ∧
        (caller.key ≠ col.updateAuthority →
          resolve_to_authority caller ci asset
            = Except.ok (Authority.pubkey caller.key)))) ∧
    (caller.key ≠ asset.owner →
      asset.updateAuthority ≠ UpdateAuthority.address caller.key →
      (∀ caddr, asset.updateAuthority ≠ UpdateAuthority.collection caddr) →
      resolve_to_authority caller ci asset = Except.ok (Authority.pubkey caller.key)) := by
  refine ⟨?_, ?_, ?_, ?_⟩
  · intro howner
    simp [resolve_to_authority, howner]
  · intro howner hua
    have hne : asset.updateAuthority = UpdateAuthority.address caller.key := hua
    simp [resolve_to_authority, howner, hne]
  · intro caddr howner hua
    have haddr : asset.updateAuthority ≠ UpdateAuthority.address caller.key := by
      rw [hua]; intro h; cases h
    refine ⟨?_, ?_, ?_⟩
    · intro hci
      simp [resolve_to_authority, howner, haddr, hua, hci]
    · intro c hci hkey
      simp [resolve_to_authority, howner, haddr, hua, hci, hkey]
    · intro c col hci hkey hload
      have hstep : resolve_to_authority caller ci asset =
          if caller.key = col.updateAuthority then Except.ok Authority.updateAuthority
          else Except.ok (Authority.pubkey caller.key) := by
        simp [resolve_to_authority, howner, haddr, hua, hci, hkey, hload]
      constructor
      · intro hcaller; rw [hstep, if_pos hcaller]
      · intro hcaller; rw [hstep, if_neg hcaller]
  · intro howner haddr hcoll
    cases hua : asset.updateAuthority with
    | none => simp [resolve_to_authority, howner, haddr, hua]
    | address p =>
      have pne : p ≠ caller.key := by
        intro h
        exact haddr (by rw [hua, h])
      simp [resolve_to_authority, howner, hua, pne]
    | collection caddr => exact absurd hua (hcoll caddr)

/-! ### Claim C8 -/

/-- Claim C8: the core check asks the asset participation function first and
falls back to the collection participation function (attributing the check to
the collection) exactly when the asset function returns `None`; when the
collection-attributed core check participates but no collection account was
supplied, `validate_asset_permissions` fails with `InvalidCollection`. -/
theorem c8_core_check_fallback :
    (∀ acf ccf : Unit → CheckResult,
      (acf () = CheckResult.None → coreCheckOf acf ccf = (Key.collection, ccf ())) ∧
      (acf () ≠ CheckResult.None → coreCheckOf acf ccf = (Key.asset, acf ()))) ∧
    (∀ (authority asset : AccountInfo) (new_owner : Option AccountInfo)
      (acf ccf : Unit → CheckResult) (pcf : PluginType → CheckResult)
      (avf : Asset → AccountInfo → Except Err ValidationResult)
      (cvf : Collection → AccountInfo → Except Err ValidationResult)
      (pvf : Plugin → AccountInfo → Option AccountInfo → Authority →
        Except Err ValidationResult) fetched,
      fetch_core_data Asset asset = Except.ok fetched →
      acf () = CheckResult.None →
      (ccf () = CheckResult.CanApprove ∨ ccf () = CheckResult.CanReject) →
      validate_asset_permissions authority asset none new_owner acf ccf pcf avf cvf pvf
        = Except.error Err.invalidCollection) := by
  constructor
  · intro acf ccf
    constructor
    · intro h; simp [coreCheckOf, h]
    · intro h
      cases hr : acf () with
      | None => exact absurd hr h
      | CanApprove => simp [coreCheckOf, hr]
      | CanReject => simp [coreCheckOf, hr]
  · intro authority asset new_owner acf ccf pcf avf cvf pvf fetched hfetch hacf hccf
    have hcc : coreCheckOf acf ccf = (Key.collection, ccf ()) := by
      simp [coreCheckOf, hacf]
    have hcv : coreValidation (coreCheckOf acf ccf) authority asset none avf cvf
        = Except.error Err.invalidCollection := by
      rw [hcc]
      rcases hccf with h | h <;> simp [coreValidation, h]
    obtain ⟨checks, hchecks⟩ :
        ∃ checks, buildAssetChecks none fetched.2.2 pcf = Except.ok checks := by
      cases fetched.2.2 <;> exact ⟨_, rfl⟩
    simp [validate_asset_permissions, hfetch, hchecks, hcv]

/-! ### Claim C9 -/

/-- A successful parse starts by consuming the discriminant byte, so the
input cannot be empty. -/
theorem parseKey_nonempty {bs : List Nat} {x : Key × List Nat} (h : parseKey bs = some x) :
    bs ≠ [] := by
  cases bs with
  | nil => simp [parseKey] at h
  | cons b t => exact List.cons_ne_nil b t

/-- A successful plugin-header load implies the load offset lies strictly
inside the account data. -/
theorem pluginHeader_load_lt {acc : AccountInfo} {off : Nat} {ph : PluginHeader}
    (h : load PluginHeader acc off = Except.ok ph) : off < acc.data.length := by
  unfold load at h
  cases hp : SolanaAccountC.parse (α := PluginHeader) (acc.data.drop off) with
  | none => rw [hp] at h; exact absurd h (by simp)
  | some x =>
    have hne : acc.data.drop off ≠ [] := by
      have hp2 : PluginHeader.parse (acc.data.drop off) = some x := hp
      unfold PluginHeader.parse at hp2
      cases hk : parseKey (acc.data.drop off) with
      | none => rw [hk] at hp2; simp at hp2
      | some y => exact parseKey_nonempty hk
    by_contra hc
    exact hne (List.drop_eq_nil_iff.mpr (by omega))

/-- The common characterization behind claim C9, for any core-object type. -/
theorem fetch_core_data_characterization (α : Type) [SolanaAccountC α] [DataBlobC α]
    (acc : AccountInfo) (a : α) (h : Option PluginHeader) (r : Option PluginRegistry)
    (hok : fetch_core_data α acc = Except.ok (a, h, r)) :
    ((h.isSome ∧ r.isSome) ↔ DataBlobC.getSize a < acc.data.length) ∧
    (acc.data.length = DataBlobC.getSize a → h = none ∧ r = none) := by
  unfold fetch_core_data at hok
  cases hload : load α acc 0 with
  | error e => rw [hload] at hok; exact absurd hok (by simp)
  | ok a0 =>
    rw [hload] at hok
    dsimp only at hok
    by_cases hsz : DataBlobC.getSize a0 ≠ acc.data.length
    · rw [if_pos hsz] at hok
      cases hph : load PluginHeader acc (DataBlobC.getSize a0) with
      | error e => rw [hph] at hok; exact absurd hok (by simp)
      | ok ph =>
        rw [hph] at hok
        dsimp only at hok
        cases hpr : load PluginRegistry acc ph.pluginRegistryOffset with
        | error e => rw [hpr] at hok; exact absurd hok (by simp)
        | ok pr =>
          rw [hpr] at hok
          dsimp only at hok
          obtain ⟨ha, hh, hr⟩ : a = a0 ∧ h = some ph ∧ r = some pr := by
            have h2 := hok
            simp only [Except.ok.injEq, Prod.mk.injEq] at h2
            exact ⟨h2.1.symm, h2.2.1.symm, h2.2.2.symm⟩
          subst ha hh hr
          have hlt : DataBlobC.getSize a < acc.data.length := pluginHeader_load_lt hph
          refine ⟨⟨fun _ => hlt, fun _ => ⟨rfl, rfl⟩⟩, fun heq => absurd heq.symm hsz⟩
    · rw [if_neg hsz] at hok
      push_neg at hsz
      obtain ⟨ha, hh, hr⟩ : a = a0 ∧ h = (none : Option PluginHeader) ∧
          r = (none : Option PluginRegistry) := by
        have h2 := hok
        simp only [Except.ok.injEq, Prod.mk.injEq] at h2
        exact ⟨h2.1.symm, h2.2.1.symm, h2.2.2.symm⟩
      subst ha hh hr
      refine ⟨⟨fun hsome => absurd hsome.1 (by simp), fun hlt => absurd hsz (by omega)⟩,
        fun _ => ⟨rfl, rfl⟩⟩

/-- Claim C9: for an account whose core object deserializes, `fetch_core_data`
returns a plugin header and a plugin registry exactly when the stored byte
length exceeds the core object's own computed size, and returns
`(object, None, None)` when the stored length equals the computed size —
both for assets and for collections. -/
theorem c9_fetch_core_data_registry_iff :
    (∀ (acc : AccountInfo) (a : Asset) (h : Option PluginHeader)
      (r : Option PluginRegistry),
      fetch_core_data Asset acc = Except.ok (a, h, r) →
      ((h.isSome ∧ r.isSome) ↔ DataBlobC.getSize a < acc.data.length) ∧
      (acc.data.length = DataBlobC.getSize a → h = none ∧ r = none)) ∧
    (∀ (acc : AccountInfo) (c : Collection) (h : Option PluginHeader)
      (r : Option PluginRegistry),
      fetch_core_data Collection acc = Except.ok (c, h, r) →
      ((h.isSome ∧ r.isSome) ↔ DataBlobC.getSize c < acc.data.length) ∧
      (acc.data.length = DataBlobC.getSize c → h = none ∧ r = none)) :=
  ⟨fun acc a h r hok => fetch_core_data_characterization Asset acc a h r hok,
   fun acc c h r hok => fetch_core_data_characterization Collection acc c h r hok⟩

/-! ### Claim C1: counterexample

A concrete asset account with one plugin.  The serialized asset occupies
bytes 0-69, the plugin header bytes 70-78, the plugin bytes 79-83, and the
registry bytes 84-98.  The core check participates (`CanApprove`, attributed
to the asset) and the core asset validator returns `Rejected`, yet the call
succeeds because the asset plugin validator approves: a core validator's
rejection is not decisive in `validate_asset_permissions`.
-/

def c1Asset : Asset := ⟨Key.asset, 1, UpdateAuthority.address 2, []⟩

def c1Header : PluginHeader := ⟨Key.pluginHeader, 84⟩

def c1Registry : PluginRegistry := ⟨Key.pluginRegistry, [⟨1, 79, Authority.none⟩]⟩

def c1AssetAcc : AccountInfo :=
  ⟨100, Asset.serialize c1Asset ++ PluginHeader.serialize c1Header
    ++ Plugin.serialize ⟨1, []⟩ ++ PluginRegistry.serialize c1Registry⟩

def c1Auth : AccountInfo := ⟨7, []⟩

/-- Claim C1 is false as stated: in this concrete call the invoked core
validator returns `Rejected` (the core check participates and is attributed
to the asset), yet `validate_asset_permissions` succeeds because one plugin
validator approves — the rejection is not decisive and the call does not
fail with `InvalidAuthority`. -/
theorem c1_counterexample :
    validate_asset_permissions c1Auth c1AssetAcc none none
      (fun _ => CheckResult.CanApprove) (fun _ => CheckResult.None)
      (fun _ => CheckResult.CanApprove)
      (fun _ _ => Except.ok ValidationResult.Rejected)
      (fun _ _ => Except.ok ValidationResult.Pass)
      (fun _ _ _ _ => Except.ok ValidationResult.Approved)
      = Except.ok (c1Asset, some c1Header, some c1Registry) ∧
    coreCheckOf (fun _ => CheckResult.CanApprove) (fun _ => CheckResult.None)
      = (Key.asset, CheckResult.CanApprove) := by
  decide

/-! ### Claim C2: counterexample

A concrete collection account with one plugin (collection bytes 0-36, header
bytes 37-45, plugin bytes 46-50, registry bytes 51-65).  The only invoked
validator returns `ForceApproved` and nothing returns `Rejected`, yet
`validate_collection_permissions` fails with `InvalidAuthority`: its plugin
loop sets the approved flag only on `Approved`.
-/

def c2Col : Collection := ⟨Key.collection, 9, []⟩

def c2Record : RegistryRecord := ⟨1, 46, Authority.none⟩

def c2CollAcc : AccountInfo :=
  ⟨100, Collection.serialize c2Col ++ PluginHeader.serialize ⟨Key.pluginHeader, 51⟩
    ++ Plugin.serialize ⟨1, []⟩
    ++ PluginRegistry.serialize ⟨Key.pluginRegistry, [c2Record]⟩⟩

def c2Auth : AccountInfo := ⟨7, []⟩

/-- Claim C2 is false as stated: in this concrete call to
`validate_collection_permissions` the one invoked plugin validator returns
`ForceApproved` and no validator returns `Rejected` (the core check does not
participate), yet the call fails with `InvalidAuthority` instead of
succeeding. -/
theorem c2_counterexample :
    validate_collection_permissions c2Auth c2CollAcc
      (fun _ => CheckResult.None) (fun _ => CheckResult.CanApprove)
      (fun _ _ => Except.ok ValidationResult.Pass)
      (fun _ _ _ _ => Except.ok ValidationResult.ForceApproved)
      = Except.error Err.invalidAuthority ∧
    recordVerdict c2CollAcc c2Auth
      (fun _ _ _ _ => Except.ok ValidationResult.ForceApproved) c2Record
      = Except.ok ValidationResult.ForceApproved ∧
    invokedRecord (fun _ => CheckResult.CanApprove) c2Record := by
  refine ⟨by decide, by decide, Or.inl rfl⟩

/-! ### Witnesses for claims C6, C8, C9 and C10 -/

def c6wAsset : Asset := ⟨Key.asset, 1, UpdateAuthority.collection 50, []⟩

def c6wCol : Collection := ⟨Key.collection, 9, []⟩

def c6wCollAcc : AccountInfo := ⟨50, Collection.serialize c6wCol⟩

def c6wCaller : AccountInfo := ⟨9, []⟩

/-- Concrete instance of claim C6: the caller is neither the owner nor the
asset's own update-authority address, the asset is delegated to a matching
parent collection, and the caller is that collection's update authority, so
resolution yields `UpdateAuthority`. -/
theorem c6_witness :
    resolve_to_authority c6wCaller (some c6wCollAcc) c6wAsset
      = Except.ok Authority.updateAuthority :=
  (((c6_resolve_to_authority_cases c6wCaller (some c6wCollAcc) c6wAsset).2.2.1
      50 (by decide) rfl).2.2 c6wCollAcc c6wCol rfl (by decide) (by decide)).1 (by decide)

def c8wAsset : Asset := ⟨Key.asset, 1, UpdateAuthority.address 2, []⟩

def c8wAcc : AccountInfo := ⟨100, Asset.serialize c8wAsset⟩

def c8wAuth : AccountInfo := ⟨7, []⟩

/-- Concrete instance of claim C8: the asset check abstains, the collection
check participates, no collection account is supplied, so
`validate_asset_permissions` fails with `InvalidCollection`. -/
theorem c8_witness :
    validate_asset_permissions c8wAuth c8wAcc none none
      (fun _ => CheckResult.None) (fun _ => CheckResult.CanApprove)
      (fun _ => CheckResult.None)
      (fun _ _ => Except.ok ValidationResult.Pass)
      (fun _ _ => Except.ok ValidationResult.Pass)
      (fun _ _ _ _ => Except.ok ValidationResult.Pass)
      = Except.error Err.invalidCollection :=
  c8_core_check_fallback.2 c8wAuth c8wAcc none
    (fun _ => CheckResult.None) (fun _ => CheckResult.CanApprove)
    (fun _ => CheckResult.None)
    (fun _ _ => Except.ok ValidationResult.Pass)
    (fun _ _ => Except.ok ValidationResult.Pass)
    (fun _ _ _ _ => Except.ok ValidationResult.Pass)
    (c8wAsset, none, none) (by decide) rfl (Or.inl rfl)

def c9wAsset : Asset := ⟨Key.asset, 1, UpdateAuthority.address 2, []⟩

def c9wHeader : PluginHeader := ⟨Key.pluginHeader, 84⟩

def c9wRegistry : PluginRegistry := ⟨Key.pluginRegistry, [⟨1, 79, Authority.none⟩]⟩

def c9wAcc : AccountInfo :=
  ⟨100, Asset.serialize c9wAsset ++ PluginHeader.serialize c9wHeader
    ++ Plugin.serialize ⟨1, []⟩ ++ PluginRegistry.serialize c9wRegistry⟩

/-- Concrete instance of claim C9: this account stores 99 bytes for an asset
of computed size 70, and `fetch_core_data` indeed returns the plugin header
and registry. -/
theorem c9_witness :
    (((some c9wHeader).isSome ∧ (some c9wRegistry).isSome) ↔
      DataBlobC.getSize c9wAsset < c9wAcc.data.length) ∧
    (c9wAcc.data.length = DataBlobC.getSize c9wAsset →
      (some c9wHeader : Option PluginHeader) = none ∧
      (some c9wRegistry : Option PluginRegistry) = none) :=
  c9_fetch_core_data_registry_iff.1 c9wAcc c9wAsset (some c9wHeader) (some c9wRegistry)
    (by decide)

def c10wCol : Collection := ⟨Key.collection, 5, []⟩

def c10wCaller : AccountInfo := ⟨7, []⟩

/-- Concrete instance of claim C10: a successful `assert_collection_authority`
call is classified among the three possible variants. -/
theorem c10_witness :
    (Authority.pubkey 7 = Authority.updateAuthority ∧
      c10wCol.updateAuthority = c10wCaller.key) ∨
      Authority.pubkey 7 = Authority.pubkey c10wCaller.key ∨
      Authority.pubkey 7 = Authority.permanent c10wCaller.key :=
  (c10_collection_owner_like_none c10wCol c10wCaller).2 (Authority.pubkey 7) (by decide)

/-! ### Characterization of the plugin-check loops -/

section PluginChecks

variable (key : Key) (asset : AccountInfo) (collection : Option AccountInfo)

variable (authority : AccountInfo) (new_owner : Option AccountInfo)

variable (pvf : Plugin → AccountInfo → Option AccountInfo → Authority →
  Except Err ValidationResult)

/-- A successful run of the plugin-check loop returns `true` exactly when the
flag was already set or some participating entry's verdict approves
(`Approved` or `ForceApproved`). -/
theorem validatePluginChecksGo_ok_iff (l : List CheckEntry) :
    ∀ (approved b : Bool),
      validatePluginChecksGo key asset collection authority new_owner pvf approved l
        = Except.ok b →
      (b = true ↔ approved = true ∨ ∃ e ∈ l, invokedFor key e ∧
        (entryVerdict key asset collection authority new_owner pvf e
            = Except.ok ValidationResult.Approved ∨
          entryVerdict key asset collection authority new_owner pvf e
            = Except.ok ValidationResult.ForceApproved)) := by
  induction l with
  | nil =>
    intro approved b h
    simp only [validatePluginChecksGo, Except.ok.injEq] at h
    subst h
    simp
  | cons e rest ih =>
    intro approved b h
    simp only [validatePluginChecksGo] at h
    by_cases hi : invokedFor key e
    · rw [if_pos hi] at h
      cases hv : entryVerdict key asset collection authority new_owner pvf e with
      | error err => rw [hv] at h; exact absurd h (by simp)
      | ok v =>
        rw [hv] at h
        cases v with
        | Rejected => exact absurd h (by simp)
        | Approved =>
          have hb := ih true b h
          exact ⟨fun _ => Or.inr ⟨e, List.mem_cons_self e rest, hi, Or.inl hv⟩,
            fun _ => hb.mpr (Or.inl rfl)⟩
        | ForceApproved =>
          have hb := ih true b h
          exact ⟨fun _ => Or.inr ⟨e, List.mem_cons_self e rest, hi, Or.inr hv⟩,
            fun _ => hb.mpr (Or.inl rfl)⟩
        | Pass =>
          have hb := ih approved b h
          constructor
          · intro hbt
            rcases hb.mp hbt with ha | ⟨f, hf, hinv, hvv⟩
            · exact Or.inl ha
            · exact Or.inr ⟨f, List.mem_cons_of_mem e hf, hinv, hvv⟩
          · intro hr
            rcases hr with ha | ⟨f, hf, hinv, hvv⟩
            · exact hb.mpr (Or.inl ha)
            · rcases List.mem_cons.mp hf with rfl | hf2
              · rcases hvv with h1 | h1 <;> rw [hv] at h1 <;> exact absurd h1 (by simp)
              · exact hb.mpr (Or.inr ⟨f, hf2, hinv, hvv⟩)
    · rw [if_neg hi] at h
      have hb := ih approved b h
      constructor
      · intro hbt
        rcases hb.mp hbt with ha | ⟨f, hf, hinv, hvv⟩
        · exact Or.inl ha
        · exact Or.inr ⟨f, List.mem_cons_of_mem e hf, hinv, hvv⟩
      · intro hr
        rcases hr with ha | ⟨f, hf, hinv, hvv⟩
        · exact hb.mpr (Or.inl ha)
        · rcases List.mem_cons.mp hf with rfl | hf2
          · exact absurd hinv hi
          · exact hb.mpr (Or.inr ⟨f, hf2, hinv, hvv⟩)

/-- A successful run of the plugin-check loop means every participating entry
obtained a non-`Rejected` verdict. -/
theorem validatePluginChecksGo_ok_no_reject (l : List CheckEntry) :
    ∀ (approved b : Bool),
      validatePluginChecksGo key asset collection authority new_owner pvf approved l
        = Except.ok b →
      ∀ e ∈ l, invokedFor key e →
        ∃ v, entryVerdict key asset collection authority new_owner pvf e = Except.ok v ∧
          v ≠ ValidationResult.Rejected := by
  induction l with
  | nil => intro approved b _ e he; exact absurd he (List.not_mem_nil e)
  | cons e rest ih =>
    intro approved b h f hf hinv
    simp only [validatePluginChecksGo] at h
    by_cases hi : invokedFor key e
    · rw [if_pos hi] at h
      cases hv : entryVerdict key asset collection authority new_owner pvf e with
      | error err => rw [hv] at h; exact absurd h (by simp)
      | ok v =>
        rw [hv] at h
        rcases List.mem_cons.mp hf with rfl | hf2
        · cases v with
          | Rejected => exact absurd h (by simp)
          | Approved => exact ⟨ValidationResult.Approved, hv, by simp⟩
          | ForceApproved => exact ⟨ValidationResult.ForceApproved, hv, by simp⟩
          | Pass => exact ⟨ValidationResult.Pass, hv, by simp⟩
        · cases v with
          | Rejected => exact absurd h (by simp)
          | Approved => exact ih true b h f hf2 hinv
          | ForceApproved => exact ih true b h f hf2 hinv
          | Pass => exact ih approved b h f hf2 hinv
    · rw [if_neg hi] at h
      rcases List.mem_cons.mp hf with rfl | hf2
      · exact absurd hinv hi
      · exact ih approved b h f hf2 hinv

/-- If every participating entry before `e` obtained a clean non-rejecting
verdict and `e` participates with verdict `Rejected`, the plugin-check loop
aborts with `InvalidAuthority`. -/
theorem validatePluginChecksGo_reject (l1 : List CheckEntry) :
    ∀ (e : CheckEntry) (l2 : List CheckEntry) (approved : Bool),
      (∀ f ∈ l1, invokedFor key f →
        ∃ v, entryVerdict key asset collection authority new_owner pvf f = Except.ok v ∧
          v ≠ ValidationResult.Rejected) →
      invokedFor key e →
      entryVerdict key asset collection authority new_owner pvf e
        = Except.ok ValidationResult.Rejected →
      validatePluginChecksGo key asset collection authority new_owner pvf approved
        (l1 ++ e :: l2) = Except.error Err.invalidAuthority := by
  induction l1 with
  | nil =>
    intro e l2 approved _ hinv hv
    simp only [List.nil_append, validatePluginChecksGo, if_pos hinv, hv]
  | cons f t ih =>
    intro e l2 approved hclean hinv hv
    have hcleanf := hclean f (List.mem_cons_self f t)
    have hcleant : ∀ g ∈ t, invokedFor key g →
        ∃ v, entryVerdict key asset collection authority new_owner pvf g = Except.ok v ∧
          v ≠ ValidationResult.Rejected :=
      fun g hg => hclean g (List.mem_cons_of_mem f hg)
    simp only [List.cons_append, validatePluginChecksGo]
    by_cases hf : invokedFor key f
    · obtain ⟨v, hvf, hvne⟩ := hcleanf hf
      rw [if_pos hf, hvf]
      cases v with
      | Rejected => exact absurd rfl hvne
      | Approved => exact ih e l2 true hcleant hinv hv
      | ForceApproved => exact ih e l2 true hcleant hinv hv
      | Pass => exact ih e l2 approved hcleant hinv hv
    · rw [if_neg hf]
      exact ih e l2 approved hcleant hinv hv

end PluginChecks

section CollectionLoop

variable (collection : AccountInfo) (authority : AccountInfo)

variable (pcf : PluginType → CheckResult)

variable (pvf : Plugin → AccountInfo → Option AccountInfo → Authority →
  Except Err ValidationResult)

/-- A successful run of the collection plugin loop returns `true` exactly when
the flag was already set or some participating record's verdict is `Approved`
(`ForceApproved` does not count here). -/
theorem collectionPluginLoop_ok_iff (l : List RegistryRecord) :
    ∀ (approved b : Bool),
      collectionPluginLoop collection authority pcf pvf approved l = Except.ok b →
      (b = true ↔ approved = true ∨ ∃ rec ∈ l, invokedRecord pcf rec ∧
        recordVerdict collection authority pvf rec = Except.ok ValidationResult.Approved) := by
  induction l with
  | nil =>
    intro approved b h
    simp only [collectionPluginLoop, Except.ok.injEq] at h
    subst h
    simp
  | cons rec rest ih =>
    intro approved b h
    simp only [collectionPluginLoop] at h
    by_cases hi : invokedRecord pcf rec
    · rw [if_pos hi] at h
      cases hv : recordVerdict collection authority pvf rec with
      | error err => rw [hv] at h; exact absurd h (by simp)
      | ok v =>
        rw [hv] at h
        dsimp only at h
        by_cases hrej : v = ValidationResult.Rejected
        · rw [if_pos hrej] at h; exact absurd h (by simp)
        · rw [if_neg hrej] at h
          by_cases happ : v = ValidationResult.Approved
          · rw [if_pos happ] at h
            subst happ
            have hb := ih true b h
            exact ⟨fun _ => Or.inr ⟨rec, List.mem_cons_self rec rest, hi, hv⟩,
              fun _ => hb.mpr (Or.inl rfl)⟩
          · rw [if_neg happ] at h
            have hb := ih approved b h
            constructor
            · intro hbt
              rcases hb.mp hbt with ha | ⟨g, hg, hinv, hvv⟩
              · exact Or.inl ha
              · exact Or.inr ⟨g, List.mem_cons_of_mem rec hg, hinv, hvv⟩
            · intro hr
              rcases hr with ha | ⟨g, hg, hinv, hvv⟩
              · exact hb.mpr (Or.inl ha)
              · rcases List.mem_cons.mp hg with rfl | hg2
                · rw [hv] at hvv
                  exact absurd (by injection hvv) happ
                · exact hb.mpr (Or.inr ⟨g, hg2, hinv, hvv⟩)
    · rw [if_neg hi] at h
      have hb := ih approved b h
      constructor
      · intro hbt
        rcases hb.mp hbt with ha | ⟨g, hg, hinv, hvv⟩
        · exact Or.inl ha
        · exact Or.inr ⟨g, List.mem_cons_of_mem rec hg, hinv, hvv⟩
      · intro hr
        rcases hr with ha | ⟨g, hg, hinv, hvv⟩
        · exact hb.mpr (Or.inl ha)
        · rcases List.mem_cons.mp hg with rfl | hg2
          · exact absurd hinv hi
          · exact hb.mpr (Or.inr ⟨g, hg2, hinv, hvv⟩)

/-- A successful run of the collection plugin loop means every participating
record obtained a non-`Rejected` verdict. -/
theorem collectionPluginLoop_ok_no_reject (l : List RegistryRecord) :
    ∀ (approved b : Bool),
      collectionPluginLoop collection authority pcf pvf approved l = Except.ok b →
      ∀ rec ∈ l, invokedRecord pcf rec →
        ∃ v, recordVerdict collection authority pvf rec = Except.ok v ∧
          v ≠ ValidationResult.Rejected := by
  induction l with
  | nil => intro approved b _ rec hrec; exact absurd hrec (List.not_mem_nil rec)
  | cons rec rest ih =>
    intro approved b h g hg hinv
    simp only [collectionPluginLoop] at h
    by_cases hi : invokedRecord pcf rec
    · rw [if_pos hi] at h
      cases hv : recordVerdict collection authority pvf rec with
      | error err => rw [hv] at h; exact absurd h (by simp)
      | ok v =>
        rw [hv] at h
        dsimp only at h
        by_cases hrej : v = ValidationResult.Rejected
        · rw [if_pos hrej] at h; exact absurd h (by simp)
        · rw [if_neg hrej] at h
          rcases List.mem_cons.mp hg with rfl | hg2
          · exact ⟨v, hv, hrej⟩
          · by_cases happ : v = ValidationResult.Approved
            · rw [if_pos happ] at h; exact ih true b h g hg2 hinv
            · rw [if_neg happ] at h; exact ih approved b h g hg2 hinv
    · rw [if_neg hi] at h
      rcases List.mem_cons.mp hg with rfl | hg2
      · exact absurd hinv hi
      · exact ih approved b h g hg2 hinv

/-- If every participating record before `rec` obtained a clean non-rejecting
verdict and `rec` participates with verdict `Rejected`, the collection plugin
loop aborts with `InvalidAuthority`. -/
theorem collectionPluginLoop_reject (l1 : List RegistryRecord) :
    ∀ (rec : RegistryRecord) (l2 : List RegistryRecord) (approved : Bool),
      (∀ g ∈ l1, invokedRecord pcf g →
        ∃ v, recordVerdict collection authority pvf g = Except.ok v ∧
          v ≠ ValidationResult.Rejected) →
      invokedRecord pcf rec →
      recordVerdict collection authority pvf rec = Except.ok ValidationResult.Rejected →
      collectionPluginLoop collection authority pcf pvf approved (l1 ++ rec :: l2)
        = Except.error Err.invalidAuthority := by
  induction l1 with
  | nil =>
    intro rec l2 approved _ hinv hv
    simp only [List.nil_append, collectionPluginLoop, if_pos hinv, hv]
    simp
  | cons f t ih =>
    intro rec l2 approved hclean hinv hv
    have hcleanf := hclean f (List.mem_cons_self f t)
    have hcleant : ∀ g ∈ t, invokedRecord pcf g →
        ∃ v, recordVerdict collection authority pvf g = Except.ok v ∧
          v ≠ ValidationResult.Rejected :=
      fun g hg => hclean g (List.mem_cons_of_mem f hg)
    simp only [List.cons_append, collectionPluginLoop]
    by_cases hf : invokedRecord pcf f
    · obtain ⟨v, hvf, hvne⟩ := hcleanf hf
      rw [if_pos hf, hvf]
      dsimp only
      rw [if_neg hvne]
      by_cases happ : v = ValidationResult.Approved
      · rw [if_pos happ]; exact ih rec l2 true hcleant hinv hv
      · rw [if_neg happ]; exact ih rec l2 approved hcleant hinv hv
    · rw [if_neg hf]
      exact ih rec l2 approved hcleant hinv hv

end CollectionLoop

/-! ### Characterization of the core validation steps -/

/-- A successful collection core step returns `true` exactly when the
collection check participates and the collection validator approves. -/
theorem collectionCoreStep_ok_iff (ccf : Unit → CheckResult)
    (cvf : Collection → AccountInfo → Except Err ValidationResult)
    (col : Collection) (authority : AccountInfo) (b0 : Bool)
    (h : collectionCoreStep ccf cvf col authority = Except.ok b0) :
    b0 = true ↔ (ccf () = CheckResult.CanApprove ∨ ccf () = CheckResult.CanReject) ∧
      cvf col authority = Except.ok ValidationResult.Approved := by
  cases hc : ccf () with
  | None =>
    rw [collectionCoreStep, hc] at h
    obtain rfl : false = b0 := by injection h
    simp [hc]
  | CanApprove =>
    rw [collectionCoreStep, hc] at h
    cases hv : cvf col authority with
    | error e => rw [hv] at h; exact absurd h (by simp)
    | ok v =>
      rw [hv] at h
      cases v with
      | Approved =>
        obtain rfl : true = b0 := by injection h
        simp [hc, hv]
      | Rejected => exact absurd h (by simp)
      | Pass =>
        obtain rfl : false = b0 := by injection h
        simp [hv]
      | ForceApproved =>
        obtain rfl : false = b0 := by injection h
        simp [hv]
  | CanReject =>
    rw [collectionCoreStep, hc] at h
    cases hv : cvf col authority with
    | error e => rw [hv] at h; exact absurd h (by simp)
    | ok v =>
      rw [hv] at h
      cases v with
      | Approved =>
        obtain rfl : true = b0 := by injection h
        simp [hc, hv]
      | Rejected => exact absurd h (by simp)
      | Pass =>
        obtain rfl : false = b0 := by injection h
        simp [hv]
      | ForceApproved =>
        obtain rfl : false = b0 := by injection h
        simp [hv]

/-- A successful collection core step with a participating check means the
collection validator returned a non-`Rejected` verdict. -/
theorem collectionCoreStep_ok_no_reject (ccf : Unit → CheckResult)
    (cvf : Collection → AccountInfo → Except Err ValidationResult)
    (col : Collection) (authority : AccountInfo) (b0 : Bool)
    (h : collectionCoreStep ccf cvf col authority = Except.ok b0)
    (hp : ccf () = CheckResult.CanApprove ∨ ccf () = CheckResult.CanReject) :
    ∃ v, cvf col authority = Except.ok v ∧ v ≠ ValidationResult.Rejected := by
  have hstep : collectionCoreStep ccf cvf col authority =
      (match cvf col authority with
       | Except.error e => Except.error e
       | Except.ok ValidationResult.Approved => Except.ok true
       | Except.ok ValidationResult.Rejected => Except.error Err.invalidAuthority
       | Except.ok _ => Except.ok false) := by
    rcases hp with hc | hc <;> rw [collectionCoreStep, hc]
  rw [hstep] at h
  cases hv : cvf col authority with
  | error e => rw [hv] at h; exact absurd h (by simp)
  | ok v =>
    rw [hv] at h
    cases v with
    | Approved => exact ⟨ValidationResult.Approved, rfl, by simp⟩
    | Rejected => exact absurd h (by simp)
    | Pass => exact ⟨ValidationResult.Pass, rfl, by simp⟩
    | ForceApproved => exact ⟨ValidationResult.ForceApproved, rfl, by simp⟩

/-- A participating collection core check whose validator rejects aborts the
core step with `InvalidAuthority`. -/
theorem collectionCoreStep_reject (ccf : Unit → CheckResult)
    (cvf : Collection → AccountInfo → Except Err ValidationResult)
    (col : Collection) (authority : AccountInfo)
    (hp : ccf () = CheckResult.CanApprove ∨ ccf () = CheckResult.CanReject)
    (hv : cvf col authority = Except.ok ValidationResult.Rejected) :
    collectionCoreStep ccf cvf col authority = Except.error Err.invalidAuthority := by
  rcases hp with hc | hc <;> rw [collectionCoreStep, hc, hv]

/-! ### Success inversion of the two validation entry points -/

/-- Inversion of a successful `validate_asset_permissions` call into its
pipeline steps. -/
theorem validate_asset_permissions_ok_inv
    (authority asset : AccountInfo) (collection new_owner : Option AccountInfo)
    (acf ccf : Unit → CheckResult) (pcf : PluginType → CheckResult)
    (avf : Asset → AccountInfo → Except Err ValidationResult)
    (cvf : Collection → AccountInfo → Except Err ValidationResult)
    (pvf : Plugin → AccountInfo → Option AccountInfo → Authority →
      Except Err ValidationResult)
    (fetched : Asset × Option PluginHeader × Option PluginRegistry)
    (hok : validate_asset_permissions authority asset collection new_owner acf ccf pcf
      avf cvf pvf = Except.ok fetched) :
    fetch_core_data Asset asset = Except.ok fetched ∧
    ∃ checks b0 b1 b2,
      buildAssetChecks collection fetched.2.2 pcf = Except.ok checks ∧
      coreValidation (coreCheckOf acf ccf) authority asset collection avf cvf
        = Except.ok b0 ∧
      validate_plugin_checks Key.collection checks authority new_owner asset collection
        pvf = Except.ok b1 ∧
      validate_plugin_checks Key.asset checks authority new_owner asset collection pvf
        = Except.ok b2 ∧
      (b2 || (b1 || b0)) = true := by
  unfold validate_asset_permissions at hok
  cases hfetch : fetch_core_data Asset asset with
  | error e => rw [hfetch] at hok; exact absurd hok (by simp)
  | ok f =>
    rw [hfetch] at hok
    dsimp only at hok
    cases hbuild : buildAssetChecks collection f.2.2 pcf with
    | error e => rw [hbuild] at hok; exact absurd hok (by simp)
    | ok checks =>
      rw [hbuild] at hok
      dsimp only at hok
      cases hcore : coreValidation (coreCheckOf acf ccf) authority asset collection avf
          cvf with
      | error e => rw [hcore] at hok; exact absurd hok (by simp)
      | ok b0 =>
        rw [hcore] at hok
        dsimp only at hok
        cases hb1 : validate_plugin_checks Key.collection checks authority new_owner
            asset collection pvf with
        | error e => rw [hb1] at hok; exact absurd hok (by simp)
        | ok b1 =>
          rw [hb1] at hok
          dsimp only at hok
          cases hb2 : validate_plugin_checks Key.asset checks authority new_owner asset
              collection pvf with
          | error e => rw [hb2] at hok; exact absurd hok (by simp)
          | ok b2 =>
            rw [hb2] at hok
            dsimp only at hok
            by_cases hb : (b2 || (b1 || b0)) = true
            · rw [if_pos hb] at hok
              obtain rfl : f = fetched := by injection hok
              exact ⟨rfl, checks, b0, b1, b2, hbuild, rfl, hb1, hb2, hb⟩
            · rw [if_neg hb] at hok
              exact absurd hok (by simp)

/-- Inversion of a successful `validate_collection_permissions` call into its
pipeline steps. -/
theorem validate_collection_permissions_ok_inv
    (authority collection : AccountInfo) (ccf : Unit → CheckResult)
    (pcf : PluginType → CheckResult)
    (cvf : Collection → AccountInfo → Except Err ValidationResult)
    (pvf : Plugin → AccountInfo → Option AccountInfo → Authority →
      Except Err ValidationResult)
    (fetched : Collection × Option PluginHeader × Option PluginRegistry)
    (hok : validate_collection_permissions authority collection ccf pcf cvf pvf
      = Except.ok fetched) :
    fetch_core_data Collection collection = Except.ok fetched ∧
    ∃ b0, collectionCoreStep ccf cvf fetched.1 authority = Except.ok b0 ∧
      (match fetched.2.2 with
       | some pr =>
         collectionPluginLoop collection authority pcf pvf b0 pr.registry
       | none => Except.ok b0) = Except.ok true := by
  unfold validate_collection_permissions at hok
  cases hfetch : fetch_core_data Collection collection with
  | error e => rw [hfetch] at hok; exact absurd hok (by simp)
  | ok f =>
    rw [hfetch] at hok
    dsimp only at hok
    cases hcore : collectionCoreStep ccf cvf f.1 authority with
    | error e => rw [hcore] at hok; exact absurd hok (by simp)
    | ok b0 =>
      rw [hcore] at hok
      dsimp only at hok
      cases hloop : (match f.2.2 with
        | some pr => collectionPluginLoop collection authority pcf pvf b0 pr.registry
        | none => Except.ok b0) with
      | error e => rw [hloop] at hok; exact absurd hok (by simp)
      | ok b =>
        rw [hloop] at hok
        dsimp only at hok
        by_cases hb : b = true
        · rw [if_pos hb] at hok
          obtain rfl : f = fetched := by injection hok
          subst hb
          exact ⟨rfl, b0, hcore, hloop⟩
        · rw [if_neg hb] at hok
          exact absurd hok (by simp)

/-! ### Claim C1: amended theorem -/

/-- Claim C1 as amended: a `Rejected` verdict from any invoked plugin
validator is decisive in both entry points — a successful call implies no
invoked plugin validator rejected, and a plugin rejection reached after clean
non-rejecting evaluations aborts with `InvalidAuthority` — and in
`validate_collection_permissions` the core collection validator's rejection
likewise aborts with `InvalidAuthority`; but in `validate_asset_permissions`
a core validator's `Rejected` only leaves the approved flag unset (see the
counterexample), so the core-validator case is restricted to the collection
entry point. -/
theorem c1_rejection_dominates_amended :
    (∀ (authority asset : AccountInfo) (collection new_owner : Option AccountInfo)
      (acf ccf : Unit → CheckResult) (pcf : PluginType → CheckResult)
      (avf : Asset → AccountInfo → Except Err ValidationResult)
      (cvf : Collection → AccountInfo → Except Err ValidationResult)
      (pvf : Plugin → AccountInfo → Option AccountInfo → Authority →
        Except Err ValidationResult) fetched,
      validate_asset_permissions authority asset collection new_owner acf ccf pcf avf
        cvf pvf = Except.ok fetched →
      ∃ checks, buildAssetChecks collection fetched.2.2 pcf = Except.ok checks ∧
        ∀ e ∈ checks, ∀ k, (k = Key.collection ∨ k = Key.asset) → invokedFor k e →
          ∃ v, entryVerdict k asset collection authority new_owner pvf e = Except.ok v ∧
            v ≠ ValidationResult.Rejected) ∧
    (∀ (authority collection : AccountInfo) (ccf : Unit → CheckResult)
      (pcf : PluginType → CheckResult)
      (cvf : Collection → AccountInfo → Except Err ValidationResult)
      (pvf : Plugin → AccountInfo → Option AccountInfo → Authority →
        Except Err ValidationResult) fetched,
      validate_collection_permissions authority collection ccf pcf cvf pvf
        = Except.ok fetched →
      ((ccf () = CheckResult.CanApprove ∨ ccf () = CheckResult.CanReject) →
        ∃ v, cvf fetched.1 authority = Except.ok v ∧ v ≠ ValidationResult.Rejected) ∧
      (∀ pr, fetched.2.2 = some pr → ∀ rec ∈ pr.registry, invokedRecord pcf rec →
        ∃ v, recordVerdict collection authority pvf rec = Except.ok v ∧
          v ≠ ValidationResult.Rejected)) ∧
    (∀ (authority collection : AccountInfo) (ccf : Unit → CheckResult)
      (pcf : PluginType → CheckResult)
      (cvf : Collection → AccountInfo → Except Err ValidationResult)
      (pvf : Plugin → AccountInfo → Option AccountInfo → Authority →
        Except Err ValidationResult) fetched,
      fetch_core_data Collection collection = Except.ok fetched →
      (ccf () = CheckResult.CanApprove ∨ ccf () = CheckResult.CanReject) →
      cvf fetched.1 authority = Except.ok ValidationResult.Rejected →
      validate_collection_permissions authority collection ccf pcf cvf pvf
        = Except.error Err.invalidAuthority) ∧
    (∀ (authority collection : AccountInfo) (ccf : Unit → CheckResult)
      (pcf : PluginType → CheckResult)
      (cvf : Collection → AccountInfo → Except Err ValidationResult)
      (pvf : Plugin → AccountInfo → Option AccountInfo → Authority →
        Except Err ValidationResult) fetched pr l1 rec l2 b0,
      fetch_core_data Collection collection = Except.ok fetched →
      fetched.2.2 = some pr →
      collectionCoreStep ccf cvf fetched.1 authority = Except.ok b0 →
      pr.registry = l1 ++ rec :: l2 →
      (∀ g ∈ l1, invokedRecord pcf g →
        ∃ v, recordVerdict collection authority pvf g = Except.ok v ∧
          v ≠ ValidationResult.Rejected) →
      invokedRecord pcf rec →
      recordVerdict collection authority pvf rec = Except.ok ValidationResult.Rejected →
      validate_collection_permissions authority collection ccf pcf cvf pvf
        = Except.error Err.invalidAuthority) ∧
    (∀ (authority asset : AccountInfo) (collection new_owner : Option AccountInfo)
      (acf ccf : Unit → CheckResult) (pcf : PluginType → CheckResult)
      (avf : Asset → AccountInfo → Except Err ValidationResult)
      (cvf : Collection → AccountInfo → Except Err ValidationResult)
      (pvf : Plugin → AccountInfo → Option AccountInfo → Authority →
        Except Err ValidationResult) fetched l1 e l2 b0 k,
      fetch_core_data Asset asset = Except.ok fetched →
      buildAssetChecks collection fetched.2.2 pcf = Except.ok (l1 ++ e :: l2) →
      coreValidation (coreCheckOf acf ccf) authority asset collection avf cvf
        = Except.ok b0 →
      (k = Key.collection ∨ k = Key.asset) →
      invokedFor k e →
      entryVerdict k asset collection authority new_owner pvf e
        = Except.ok ValidationResult.Rejected →
      (∀ f ∈ l1, invokedFor k f →
        ∃ v, entryVerdict k asset collection authority new_owner pvf f = Except.ok v ∧
          v ≠ ValidationResult.Rejected) →
      (k = Key.asset → ∃ b1, validate_plugin_checks Key.collection (l1 ++ e :: l2)
        authority new_owner asset collection pvf = Except.ok b1) →
      validate_asset_permissions authority asset collection new_owner acf ccf pcf avf
        cvf pvf = Except.error Err.invalidAuthority) := by
  refine ⟨?_, ?_, ?_, ?_, ?_⟩
  · intro authority asset collection new_owner acf ccf pcf avf cvf pvf fetched hok
    obtain ⟨_, checks, b0, b1, b2, hbuild, _, hb1, hb2, _⟩ :=
      validate_asset_permissions_ok_inv authority asset collection new_owner acf ccf pcf
        avf cvf pvf fetched hok
    refine ⟨checks, hbuild, fun e he k hk hinv => ?_⟩
    rcases hk with rfl | rfl
    · exact validatePluginChecksGo_ok_no_reject Key.collection asset collection authority
        new_owner pvf checks false b1 hb1 e he hinv
    · exact validatePluginChecksGo_ok_no_reject Key.asset asset collection authority
        new_owner pvf checks false b2 hb2 e he hinv
  · intro authority collection ccf pcf cvf pvf fetched hok
    obtain ⟨_, b0, hcore, hloop⟩ :=
      validate_collection_permissions_ok_inv authority collection ccf pcf cvf pvf
        fetched hok
    constructor
    · intro hp
      exact collectionCoreStep_ok_no_reject ccf cvf fetched.1 authority b0 hcore hp
    · intro pr hpr rec hrec hinv
      rw [hpr] at hloop
      exact collectionPluginLoop_ok_no_reject collection authority pcf pvf pr.registry
        b0 true hloop rec hrec hinv
  · intro authority collection ccf pcf cvf pvf fetched hfetch hp hv
    have hcore := collectionCoreStep_reject ccf cvf fetched.1 authority hp hv
    unfold validate_collection_permissions
    rw [hfetch]
    dsimp only
    rw [hcore]
  · intro authority collection ccf pcf cvf pvf fetched pr l1 rec l2 b0 hfetch hpr hcore
      hsplit hclean hinv hv
    have hloop := collectionPluginLoop_reject collection authority pcf pvf l1 rec l2 b0
      hclean hinv hv
    unfold validate_collection_permissions
    rw [hfetch]
    dsimp only
    rw [hcore]
    dsimp only
    rw [hpr]
    dsimp only
    rw [hsplit, hloop]
  · intro authority asset collection new_owner acf ccf pcf avf cvf pvf fetched l1 e l2
      b0 k hfetch hbuild hcore hk hinv hv hclean hb1
    unfold validate_asset_permissions
    rw [hfetch]
    dsimp only
    rw [hbuild]
    dsimp only
    rw [hcore]
    dsimp only
    rcases hk with rfl | rfl
    · have hrej := validatePluginChecksGo_reject Key.collection asset collection
        authority new_owner pvf l1 e l2 false hclean hinv hv
      rw [show validate_plugin_checks Key.collection (l1 ++ e :: l2) authority new_owner
          asset collection pvf = Except.error Err.invalidAuthority from hrej]
    · obtain ⟨b1, hb1ok⟩ := hb1 rfl
      rw [hb1ok]
      dsimp only
      have hrej := validatePluginChecksGo_reject Key.asset asset collection authority
        new_owner pvf l1 e l2 false hclean hinv hv
      rw [show validate_plugin_checks Key.asset (l1 ++ e :: l2) authority new_owner
          asset collection pvf = Except.error Err.invalidAuthority from hrej]

def c1wCol : Collection := ⟨Key.collection, 9, []⟩

def c1wCollAcc : AccountInfo := ⟨100, Collection.serialize c1wCol⟩

def c1wAuth : AccountInfo := ⟨7, []⟩

/-- Concrete instance of amended claim C1: in
`validate_collection_permissions`, a participating core collection check
whose validator rejects aborts the call with `InvalidAuthority`. -/
theorem c1_witness :
    validate_collection_permissions c1wAuth c1wCollAcc
      (fun _ => CheckResult.CanApprove) (fun _ => CheckResult.None)
      (fun _ _ => Except.ok ValidationResult.Rejected)
      (fun _ _ _ _ => Except.ok ValidationResult.Pass)
      = Except.error Err.invalidAuthority :=
  c1_rejection_dominates_amended.2.2.1 c1wAuth c1wCollAcc
    (fun _ => CheckResult.CanApprove) (fun _ => CheckResult.None)
    (fun _ _ => Except.ok ValidationResult.Rejected)
    (fun _ _ _ _ => Except.ok ValidationResult.Pass)
    (c1wCol, none, none) (by decide) (Or.inl rfl) rfl

/-! ### Claim C2: amended theorem -/

/-- Claim C2 as amended: in `validate_asset_permissions`, when every pipeline
step completes without error (so, in particular, no invoked validator
rejected) and some invoked plugin validator returns `ForceApproved`, the call
succeeds, even when the core check did not participate.  (Core validators'
`ForceApproved`, and `ForceApproved` inside `validate_collection_permissions`,
do not set the approved flag — see the counterexample.) -/
theorem c2_force_approved_amended
    (authority asset : AccountInfo) (collection new_owner : Option AccountInfo)
    (acf ccf : Unit → CheckResult) (pcf : PluginType → CheckResult)
    (avf : Asset → AccountInfo → Except Err ValidationResult)
    (cvf : Collection → AccountInfo → Except Err ValidationResult)
    (pvf : Plugin → AccountInfo → Option AccountInfo → Authority →
      Except Err ValidationResult)
    (fetched : Asset × Option PluginHeader × Option PluginRegistry)
    (checks : List CheckEntry) (b0 b1 b2 : Bool)
    (hfetch : fetch_core_data Asset asset = Except.ok fetched)
    (hbuild : buildAssetChecks collection fetched.2.2 pcf = Except.ok checks)
    (hcore : coreValidation (coreCheckOf acf ccf) authority asset collection avf cvf
      = Except.ok b0)
    (hb1 : validate_plugin_checks Key.collection checks authority new_owner asset
      collection pvf = Except.ok b1)
    (hb2 : validate_plugin_checks Key.asset checks authority new_owner asset collection
      pvf = Except.ok b2)
    (hex : ∃ e ∈ checks, ∃ k, (k = Key.collection ∨ k = Key.asset) ∧ invokedFor k e ∧
      entryVerdict k asset collection authority new_owner pvf e
        = Except.ok ValidationResult.ForceApproved) :
    validate_asset_permissions authority asset collection new_owner acf ccf pcf avf cvf
      pvf = Except.ok fetched := by
  have hb : (b2 || (b1 || b0)) = true := by
    obtain ⟨e, he, k, hk, hinv, hv⟩ := hex
    rcases hk with rfl | rfl
    · have hb1t := (validatePluginChecksGo_ok_iff Key.collection asset collection
        authority new_owner pvf checks false b1 hb1).mpr
        (Or.inr ⟨e, he, hinv, Or.inr hv⟩)
      rw [hb1t]
      simp
    · have hb2t := (validatePluginChecksGo_ok_iff Key.asset asset collection authority
        new_owner pvf checks false b2 hb2).mpr (Or.inr ⟨e, he, hinv, Or.inr hv⟩)
      rw [hb2t]
      simp
  unfold validate_asset_permissions
  rw [hfetch]
  dsimp only
  rw [hbuild]
  dsimp only
  rw [hcore]
  dsimp only
  rw [hb1]
  dsimp only
  rw [hb2]
  dsimp only
  rw [if_pos hb]

def c2wAsset : Asset := ⟨Key.asset, 1, UpdateAuthority.address 2, []⟩

def c2wHeader : PluginHeader := ⟨Key.pluginHeader, 84⟩

def c2wRecord : RegistryRecord := ⟨1, 79, Authority.none⟩

def c2wRegistry : PluginRegistry := ⟨Key.pluginRegistry, [c2wRecord]⟩

def c2wAcc : AccountInfo :=
  ⟨100, Asset.serialize c2wAsset ++ PluginHeader.serialize c2wHeader
    ++ Plugin.serialize ⟨1, []⟩ ++ PluginRegistry.serialize c2wRegistry⟩

def c2wAuth : AccountInfo := ⟨7, []⟩

def c2wEntry : CheckEntry := ⟨1, Key.asset, CheckResult.CanApprove, c2wRecord⟩

/-- Concrete instance of amended claim C2: a single asset plugin whose
validator returns `ForceApproved` makes the call succeed although the core
check abstains. -/
theorem c2_witness :
    validate_asset_permissions c2wAuth c2wAcc none none
      (fun _ => CheckResult.None) (fun _ => CheckResult.None)
      (fun _ => CheckResult.CanApprove)
      (fun _ _ => Except.ok ValidationResult.Pass)
      (fun _ _ => Except.ok ValidationResult.Pass)
      (fun _ _ _ _ => Except.ok ValidationResult.ForceApproved)
      = Except.ok (c2wAsset, some c2wHeader, some c2wRegistry) :=
  c2_force_approved_amended c2wAuth c2wAcc none none
    (fun _ => CheckResult.None) (fun _ => CheckResult.None)
    (fun _ => CheckResult.CanApprove)
    (fun _ _ => Except.ok ValidationResult.Pass)
    (fun _ _ => Except.ok ValidationResult.Pass)
    (fun _ _ _ _ => Except.ok ValidationResult.ForceApproved)
    (c2wAsset, some c2wHeader, some c2wRegistry) [c2wEntry] false false true
    (by decide) (by decide) (by decide) (by decide) (by decide)
    ⟨c2wEntry, List.mem_cons_self c2wEntry [], Key.asset, Or.inr rfl,
      ⟨rfl, Or.inl rfl⟩, by decide⟩

/-! ### Claim C5: counterexample

The same concrete shape as the C1 counterexample, exercised against claim
C5's success condition: the call succeeds although a rejection occurred among
the invoked validators (the participating core asset validator returned
`Rejected`), so success does not require "no rejection occurred".
-/

def c5xAsset : Asset := ⟨Key.asset, 1, UpdateAuthority.address 2, []⟩

def c5xHeader : PluginHeader := ⟨Key.pluginHeader, 84⟩

def c5xRegistry : PluginRegistry := ⟨Key.pluginRegistry, [⟨1, 79, Authority.none⟩]⟩

def c5xAcc : AccountInfo :=
  ⟨100, Asset.serialize c5xAsset ++ PluginHeader.serialize c5xHeader
    ++ Plugin.serialize ⟨1, []⟩ ++ PluginRegistry.serialize c5xRegistry⟩

def c5xAuth : AccountInfo := ⟨7, []⟩

/-- Claim C5 is false as stated: its success condition requires that no
rejection occurred, yet this concrete `validate_asset_permissions` call
succeeds while the invoked core asset validator returns `Rejected` — the
core check participates (`CanApprove`, attributed to the asset), its
validator's rejection is evaluated (core validation yields `ok false`, not an
abort), and an approving plugin makes the call succeed anyway. -/
theorem c5_counterexample :
    validate_asset_permissions c5xAuth c5xAcc none none
      (fun _ => CheckResult.CanApprove) (fun _ => CheckResult.None)
      (fun _ => CheckResult.CanApprove)
      (fun _ _ => Except.ok ValidationResult.Rejected)
      (fun _ _ => Except.ok ValidationResult.Pass)
      (fun _ _ _ _ => Except.ok ValidationResult.Approved)
      = Except.ok (c5xAsset, some c5xHeader, some c5xRegistry) ∧
    coreCheckOf (fun _ => CheckResult.CanApprove) (fun _ => CheckResult.None)
      = (Key.asset, CheckResult.CanApprove) ∧
    coreValidation (Key.asset, CheckResult.CanApprove) c5xAuth c5xAcc none
      (fun _ _ => Except.ok ValidationResult.Rejected)
      (fun _ _ => Except.ok ValidationResult.Pass)
      = Except.ok false := by
  decide

/-! ### Claim C5: amended theorem -/

/-- Claim C5 as amended, deny by default: a successful
`validate_asset_permissions` call returns the fetched triple and implies both
an approving vote (core `Approved`, or a plugin `Approved`/`ForceApproved`)
and the absence of rejections among invoked plugin validators; when the
running flag is never set (core validation and both plugin passes return
`false`), the call fails with `InvalidAuthority`.  The collection entry point
behaves analogously, and there success additionally implies that neither the
participating core validator nor any invoked plugin validator rejected.  The
original claim's blanket "no rejection occurred" is cut back only for the
core validator of `validate_asset_permissions`, whose rejection does not
prevent success (see the counterexample). -/
theorem c5_deny_by_default :
    (∀ (authority asset : AccountInfo) (collection new_owner : Option AccountInfo)
      (acf ccf : Unit → CheckResult) (pcf : PluginType → CheckResult)
      (avf : Asset → AccountInfo → Except Err ValidationResult)
      (cvf : Collection → AccountInfo → Except Err ValidationResult)
      (pvf : Plugin → AccountInfo → Option AccountInfo → Authority →
        Except Err ValidationResult) fetched,
      validate_asset_permissions authority asset collection new_owner acf ccf pcf avf
        cvf pvf = Except.ok fetched →
      fetch_core_data Asset asset = Except.ok fetched ∧
      ∃ checks, buildAssetChecks collection fetched.2.2 pcf = Except.ok checks ∧
        (coreValidation (coreCheckOf acf ccf) authority asset collection avf cvf
            = Except.ok true ∨
          ∃ e ∈ checks, ∃ k, (k = Key.collection ∨ k = Key.asset) ∧ invokedFor k e ∧
            (entryVerdict k asset collection authority new_owner pvf e
                = Except.ok ValidationResult.Approved ∨
              entryVerdict k asset collection authority new_owner pvf e
                = Except.ok ValidationResult.ForceApproved)) ∧
        (∀ e ∈ checks, ∀ k, (k = Key.collection ∨ k = Key.asset) → invokedFor k e →
          ∃ v, entryVerdict k asset collection authority new_owner pvf e = Except.ok v ∧
            v ≠ ValidationResult.Rejected)) ∧
    (∀ (authority asset : AccountInfo) (collection new_owner : Option AccountInfo)
      (acf ccf : Unit → CheckResult) (pcf : PluginType → CheckResult)
      (avf : Asset → AccountInfo → Except Err ValidationResult)
      (cvf : Collection → AccountInfo → Except Err ValidationResult)
      (pvf : Plugin → AccountInfo → Option AccountInfo → Authority →
        Except Err ValidationResult) fetched checks,
      fetch_core_data Asset asset = Except.ok fetched →
      buildAssetChecks collection fetched.2.2 pcf = Except.ok checks →
      coreValidation (coreCheckOf acf ccf) authority asset collection avf cvf
        = Except.ok false →
      validate_plugin_checks Key.collection checks authority new_owner asset collection
        pvf = Except.ok false →
      validate_plugin_checks Key.asset checks authority new_owner asset collection pvf
        = Except.ok false →
      validate_asset_permissions authority asset collection new_owner acf ccf pcf avf
        cvf pvf = Except.error Err.invalidAuthority) ∧
    (∀ (authority collection : AccountInfo) (ccf : Unit → CheckResult)
      (pcf : PluginType → CheckResult)
      (cvf : Collection → AccountInfo → Except Err ValidationResult)
      (pvf : Plugin → AccountInfo → Option AccountInfo → Authority →
        Except Err ValidationResult) fetched,
      validate_collection_permissions authority collection ccf pcf cvf pvf
        = Except.ok fetched →
      fetch_core_data Collection collection = Except.ok fetched ∧
      (((ccf () = CheckResult.CanApprove ∨ ccf () = CheckResult.CanReject) ∧
          cvf fetched.1 authority = Except.ok ValidationResult.Approved) ∨
        ∃ pr, fetched.2.2 = some pr ∧ ∃ rec ∈ pr.registry, invokedRecord pcf rec ∧
          recordVerdict collection authority pvf rec
            = Except.ok ValidationResult.Approved) ∧
      ((ccf () = CheckResult.CanApprove ∨ ccf () = CheckResult.CanReject) →
        ∃ v, cvf fetched.1 authority = Except.ok v ∧ v ≠ ValidationResult.Rejected) ∧
      (∀ pr, fetched.2.2 = some pr → ∀ rec ∈ pr.registry, invokedRecord pcf rec →
        ∃ v, recordVerdict collection authority pvf rec = Except.ok v ∧
          v ≠ ValidationResult.Rejected)) ∧
    (∀ (authority collection : AccountInfo) (ccf : Unit → CheckResult)
      (pcf : PluginType → CheckResult)
      (cvf : Collection → AccountInfo → Except Err ValidationResult)
      (pvf : Plugin → AccountInfo → Option AccountInfo → Authority →
        Except Err ValidationResult) fetched,
      fetch_core_data Collection collection = Except.ok fetched →
      collectionCoreStep ccf cvf fetched.1 authority = Except.ok false →
      (match fetched.2.2 with
       | some pr => collectionPluginLoop collection authority pcf pvf false pr.registry
       | none => Except.ok false) = Except.ok false →
      validate_collection_permissions authority collection ccf pcf cvf pvf
        = Except.error Err.invalidAuthority) := by
  refine ⟨?_, ?_, ?_, ?_⟩
  · intro authority asset collection new_owner acf ccf pcf avf cvf pvf fetched hok
    obtain ⟨hfetch, checks, b0, b1, b2, hbuild, hcore, hb1, hb2, hb⟩ :=
      validate_asset_permissions_ok_inv authority asset collection new_owner acf ccf pcf
        avf cvf pvf fetched hok
    refine ⟨hfetch, checks, hbuild, ?_, ?_⟩
    · have hsplit : b2 = true ∨ b1 = true ∨ b0 = true := by
        rcases Bool.or_eq_true_iff.mp hb with h | h
        · exact Or.inl h
        · rcases Bool.or_eq_true_iff.mp h with h2 | h2
          · exact Or.inr (Or.inl h2)
          · exact Or.inr (Or.inr h2)
      rcases hsplit with hbt | hbt | hbt
      · rcases (validatePluginChecksGo_ok_iff Key.asset asset collection authority
            new_owner pvf checks false b2 hb2).mp hbt with hfalse | ⟨e, he, hinv, hv⟩
        · exact absurd hfalse (by simp)
        · exact Or.inr ⟨e, he, Key.asset, Or.inr rfl, hinv, hv⟩
      · rcases (validatePluginChecksGo_ok_iff Key.collection asset collection authority
            new_owner pvf checks false b1 hb1).mp hbt with hfalse | ⟨e, he, hinv, hv⟩
        · exact absurd hfalse (by simp)
        · exact Or.inr ⟨e, he, Key.collection, Or.inl rfl, hinv, hv⟩
      · exact Or.inl (hbt ▸ hcore)
    · intro e he k hk hinv
      rcases hk with rfl | rfl
      · exact validatePluginChecksGo_ok_no_reject Key.collection asset collection
          authority new_owner pvf checks false b1 hb1 e he hinv
      · exact validatePluginChecksGo_ok_no_reject Key.asset asset collection authority
          new_owner pvf checks false b2 hb2 e he hinv
  · intro authority asset collection new_owner acf ccf pcf avf cvf pvf fetched checks
      hfetch hbuild hcore hb1 hb2
    unfold validate_asset_permissions
    rw [hfetch]
    dsimp only
    rw [hbuild]
    dsimp only
    rw [hcore]
    dsimp only
    rw [hb1]
    dsimp only
    rw [hb2]
    dsimp only
    rfl
  · intro authority collection ccf pcf cvf pvf fetched hok
    obtain ⟨hfetch, b0, hcore, hloop⟩ :=
      validate_collection_permissions_ok_inv authority collection ccf pcf cvf pvf
        fetched hok
    refine ⟨hfetch, ?_, ?_, ?_⟩
    · cases hpr : fetched.2.2 with
      | none =>
        rw [hpr] at hloop
        obtain hb0 : b0 = true := by injection hloop
        subst hb0
        exact Or.inl ((collectionCoreStep_ok_iff ccf cvf fetched.1 authority true
          hcore).mp rfl)
      | some pr =>
        rw [hpr] at hloop
        rcases (collectionPluginLoop_ok_iff collection authority pcf pvf pr.registry b0
            true hloop).mp rfl with hb0 | ⟨rec, hrec, hinv, hv⟩
        · subst hb0
          exact Or.inl ((collectionCoreStep_ok_iff ccf cvf fetched.1 authority true
            hcore).mp rfl)
        · exact Or.inr ⟨pr, rfl, rec, hrec, hinv, hv⟩
    · intro hp
      exact collectionCoreStep_ok_no_reject ccf cvf fetched.1 authority b0 hcore hp
    · intro pr hpr rec hrec hinv
      rw [hpr] at hloop
      exact collectionPluginLoop_ok_no_reject collection authority pcf pvf pr.registry
        b0 true hloop rec hrec hinv
  · intro authority collection ccf pcf cvf pvf fetched hfetch hcore hloop
    unfold validate_collection_permissions
    rw [hfetch]
    dsimp only
    rw [hcore]
    dsimp only
    rw [hloop]
    dsimp only
    rfl

def c5wAsset : Asset := ⟨Key.asset, 1, UpdateAuthority.address 2, []⟩

def c5wAcc : AccountInfo := ⟨100, Asset.serialize c5wAsset⟩

def c5wAuth : AccountInfo := ⟨7, []⟩

/-- Concrete instance of claim C5: a call in which every check abstains or
passes (the approved flag is never set) fails with `InvalidAuthority`. -/
theorem c5_witness :
    validate_asset_permissions c5wAuth c5wAcc none none
      (fun _ => CheckResult.CanApprove) (fun _ => CheckResult.None)
      (fun _ => CheckResult.None)
      (fun _ _ => Except.ok ValidationResult.Pass)
      (fun _ _ => Except.ok ValidationResult.Pass)
      (fun _ _ _ _ => Except.ok ValidationResult.Pass)
      = Except.error Err.invalidAuthority :=
  c5_deny_by_default.2.1 c5wAuth c5wAcc none none
    (fun _ => CheckResult.CanApprove) (fun _ => CheckResult.None)
    (fun _ => CheckResult.None)
    (fun _ _ => Except.ok ValidationResult.Pass)
    (fun _ _ => Except.ok ValidationResult.Pass)
    (fun _ _ _ _ => Except.ok ValidationResult.Pass)
    (c5wAsset, none, none) [] (by decide) (by decide) (by decide) (by decide)
    (by decide)

/-! ### Byte-level helper lemmas for the compression engine -/

theorem natToLE_length (w n : Nat) : (natToLE w n).length = w := by
  induction w generalizing n with
  | zero => rfl
  | succ w ih => simp [natToLE, ih]

theorem leToNat_natToLE (w n : Nat) (h : n < 256 ^ w) : leToNat (natToLE w n) = n := by
  induction w generalizing n with
  | zero =>
    have : n = 0 := by simpa using h
    subst this
    rfl
  | succ w ih =>
    have hdiv : n / 256 < 256 ^ w := by
      have hp : (256 : Nat) ^ (w + 1) = 256 ^ w * 256 := by ring
      omega
    have hmod : n % 256 % 256 = n % 256 := by simp
    simp only [natToLE, leToNat, ih (n / 256) hdiv, hmod]
    omega

theorem hashBytes_lt (bs : List Nat) : hashBytes bs < 2 ^ 256 := by
  unfold hashBytes
  induction bs using List.reverseRecOn with
  | nil => simp
  | append_singleton t b _ =>
    rw [List.foldl_append]
    exact Nat.mod_lt _ (by positivity)

theorem Key.ofByte_toByte (k : Key) : Key.ofByte k.toByte = some k := by
  cases k <;> rfl

/-- Parsing back a serialized hashed-asset record succeeds and recovers it. -/
theorem hashedAsset_parse_serialize (k : Key) (d : Nat) (hd : d < 256 ^ 32) :
    HashedAsset.parse (HashedAsset.serialize ⟨k, d⟩) = some (⟨k, d⟩, []) := by
  have hlen : (natToLE 32 d).length = 32 := natToLE_length 32 d
  simp only [HashedAsset.serialize, HashedAsset.parse, parseKey, Key.ofByte_toByte,
    parseLE, hlen, le_refl, if_true]
  rw [List.take_of_length_le (le_of_eq hlen), List.drop_of_length_le (le_of_eq hlen)]
  rw [leToNat_natToLE 32 d hd]

/-- Loading a hashed-asset cell written by `compress_into_account_space`
recovers the committed record. -/
theorem hashedAsset_load_serialize (acckey : Pubkey) (k : Key) (d : Nat)
    (hd : d < 2 ^ 256) :
    load HashedAsset ⟨acckey, HashedAsset.serialize ⟨k, d⟩⟩ 0 = Except.ok ⟨k, d⟩ := by
  have hd2 : d < 256 ^ 32 := by
    have : (256 : Nat) ^ 32 = 2 ^ 256 := by norm_num
    omega
  unfold load
  rw [show SolanaAccountC.parse (α := HashedAsset) = HashedAsset.parse from rfl]
  dsimp only
  rw [List.drop_zero, hashedAsset_parse_serialize k d hd2]

/-! ### The compression loop produces index-sorted schemas -/

/-- Inversion of a successful compression loop: each produced schema carries
the position index, the record's authority, and the plugin deserialized at
the record's offset. -/
theorem buildSchemas_ok_forall2 (acc : AccountInfo) (l : List (Nat × RegistryRecord)) :
    ∀ ys, buildSchemas acc l = Except.ok ys →
      List.Forall₂ (fun (ir : Nat × RegistryRecord) (s : HashablePluginSchema) =>
        s.index = ir.1 ∧ s.authority = ir.2.authority ∧
        load Plugin acc ir.2.offset = Except.ok s.plugin) l ys := by
  induction l with
  | nil =>
    intro ys h
    obtain rfl : ([] : List HashablePluginSchema) = ys := by injection h
    exact List.Forall₂.nil
  | cons ir rest ih =>
    intro ys h
    simp only [buildSchemas] at h
    cases hp : load Plugin acc ir.2.offset with
    | error e => rw [hp] at h; exact absurd h (by simp)
    | ok plugin =>
      rw [hp] at h
      cases ht : buildSchemas acc rest with
      | error e => rw [ht] at h; exact absurd h (by simp)
      | ok tail =>
        rw [ht] at h
        obtain rfl : (⟨ir.1, ir.2.authority, plugin⟩ : HashablePluginSchema) :: tail
            = ys := by injection h
        exact List.Forall₂.cons ⟨rfl, rfl, hp⟩ (ih tail ht)

/-- Mapping both sides of a `Forall₂` through compatible projections yields
equal lists. -/
theorem forall2_map_eq {α β γ : Type} {R : α → β → Prop} {f : β → γ} {g : α → γ}
    (hfg : ∀ a b, R a b → f b = g a) :
    ∀ {l : List α} {ys : List β}, List.Forall₂ R l ys → ys.map f = l.map g := by
  intro l ys h
  induction h with
  | nil => rfl
  | cons hr _ ih => simp [List.map, ih, hfg _ _ hr]

theorem withIndices_fst_ge (i : Nat) {α : Type} (l : List α) :
    ∀ p ∈ withIndices i l, i ≤ p.1 := by
  induction l generalizing i with
  | nil => intro p hp; simp [withIndices] at hp
  | cons a t ih =>
    intro p hp
    simp only [withIndices, List.mem_cons] at hp
    rcases hp with rfl | hp
    · exact le_refl i
    · exact Nat.le_of_succ_le (ih (i + 1) p hp)

theorem withIndices_pairwise (i : Nat) {α : Type} (l : List α) :
    (withIndices i l).Pairwise (fun p q => p.1 < q.1) := by
  induction l generalizing i with
  | nil => exact List.Pairwise.nil
  | cons a t ih =>
    refine List.Pairwise.cons ?_ (ih (i + 1))
    intro q hq
    exact Nat.lt_of_succ_le (withIndices_fst_ge (i + 1) t q hq)

/-- The schemas produced by the compression loop have strictly increasing
indices. -/
theorem buildSchemas_pairwise (acc : AccountInfo) (recs : List RegistryRecord)
    (ys : List HashablePluginSchema)
    (h : buildSchemas acc (withIndices 0 recs) = Except.ok ys) :
    ys.Pairwise (fun s t => s.index < t.index) := by
  have hmap : ys.map (fun s => s.index) = (withIndices 0 recs).map Prod.fst :=
    forall2_map_eq (fun ir s hr => hr.1) (buildSchemas_ok_forall2 acc _ ys h)
  have h1 : ((withIndices 0 recs).map Prod.fst).Pairwise (fun a b => a < b) :=
    (List.pairwise_map).mpr (withIndices_pairwise 0 recs)
  rw [← hmap] at h1
  exact (List.pairwise_map).mp h1

/-- Sorting a list of schemas whose indices are already strictly increasing
leaves it unchanged. -/
theorem sortedByIndex_eq_self {ys : List HashablePluginSchema}
    (h : ys.Pairwise (fun s t => s.index < t.index)) : sortedByIndex ys = ys :=
  List.Sorted.insertionSort_eq (h.imp fun hlt => Nat.le_of_lt hlt)

/-! ### Claim C3 -/

/-- Claim C3, the round-trip law: whenever
`compress_into_account_space O R cell` succeeds with proof `P` and rewritten
cell `cell'`, `verify_proof cell' P` succeeds and returns exactly `O`
together with `P`'s plugin list, which is `R`'s records in ascending offset
order paired with their ascending indices and deserialized plugins; and the
digest committed to the cell equals the digest `verify_proof` recomputes. -/
theorem c3_compress_verify_roundtrip (asset : Asset)
    (plugin_registry : Option PluginRegistry) (asset_info : AccountInfo)
    (proof : CompressionProof) (acc2 : AccountInfo)
    (hok : compress_into_account_space asset plugin_registry asset_info
      = Except.ok (proof, acc2)) :
    verify_proof acc2 proof = Except.ok (asset, proof.plugins) ∧
    proof.asset = asset ∧
    List.Forall₂ (fun (ir : Nat × RegistryRecord) (s : HashablePluginSchema) =>
        s.index = ir.1 ∧ s.authority = ir.2.authority ∧
        load Plugin asset_info ir.2.offset = Except.ok s.plugin)
      (withIndices 0 (sortedRegistryRecords plugin_registry)) proof.plugins ∧
    load HashedAsset acc2 0 = Except.ok ⟨Key.hashedAsset, recomputedDigest proof⟩ := by
  unfold compress_into_account_space at hok
  cases hb : buildSchemas asset_info
      (withIndices 0 (sortedRegistryRecords plugin_registry)) with
  | error e => rw [hb] at hok; exact absurd hok (by simp)
  | ok schemas =>
    rw [hb] at hok
    dsimp only at hok
    obtain ⟨hp, ha⟩ : proof = CompressionProof.new asset schemas ∧
        acc2 = { asset_info with data := HashedAsset.serialize ⟨Key.hashedAsset,
          HashedAssetSchema.hash ⟨asset.hash,
            schemas.map HashablePluginSchema.hash⟩⟩ } := by
      have h2 := hok
      simp only [Except.ok.injEq, Prod.mk.injEq] at h2
      exact ⟨h2.1.symm, h2.2.symm⟩
    subst hp ha
    have hpair := buildSchemas_pairwise asset_info (sortedRegistryRecords plugin_registry)
      schemas hb
    have hsorteq : sortedByIndex schemas = schemas := sortedByIndex_eq_self hpair
    have hdig : recomputedDigest (CompressionProof.new asset schemas)
        = HashedAssetSchema.hash ⟨asset.hash, schemas.map HashablePluginSchema.hash⟩ := by
      unfold recomputedDigest Asset.ofProof CompressionProof.new
      dsimp only
      rw [hsorteq]
    have hload : load HashedAsset
        ({ asset_info with data := HashedAsset.serialize ⟨Key.hashedAsset,
          HashedAssetSchema.hash ⟨asset.hash,
            schemas.map HashablePluginSchema.hash⟩⟩ } : AccountInfo) 0
        = Except.ok ⟨Key.hashedAsset, HashedAssetSchema.hash ⟨asset.hash,
            schemas.map HashablePluginSchema.hash⟩⟩ :=
      hashedAsset_load_serialize asset_info.key Key.hashedAsset _ (hashBytes_lt _)
    refine ⟨?_, rfl, buildSchemas_ok_forall2 asset_info _ schemas hb, ?_⟩
    · unfold verify_proof
      rw [hload]
      dsimp only
      rw [hdig, if_neg (by simp)]
      have hplug : (CompressionProof.new asset schemas).plugins = schemas := rfl
      rw [show Asset.ofProof (CompressionProof.new asset schemas) = asset from rfl,
        hplug, hsorteq]
    · rw [hload, hdig]

def c3wAsset : Asset := ⟨Key.asset, 3, UpdateAuthority.address 4, []⟩

def c3wReg : PluginRegistry := ⟨Key.pluginRegistry, [⟨2, 79, Authority.pubkey 5⟩]⟩

def c3wAcc : AccountInfo :=
  ⟨100, Asset.serialize c3wAsset ++ PluginHeader.serialize ⟨Key.pluginHeader, 85⟩
    ++ Plugin.serialize ⟨2, [7]⟩ ++ PluginRegistry.serialize c3wReg⟩

def c3wRes : Except Err (CompressionProof × AccountInfo) :=
  compress_into_account_space c3wAsset (some c3wReg) c3wAcc

def c3wProof : CompressionProof :=
  match c3wRes with
  | Except.ok (p, _) => p
  | Except.error _ => ⟨c3wAsset, []⟩

def c3wAcc2 : AccountInfo :=
  match c3wRes with
  | Except.ok (_, a) => a
  | Except.error _ => c3wAcc

set_option maxRecDepth 100000 in
/-- Concrete instance of claim C3: compressing an asset with one plugin and
verifying the returned proof against the rewritten cell succeeds and
reproduces the asset, and the committed digest matches the recomputation. -/
theorem c3_witness :
    verify_proof c3wAcc2 c3wProof = Except.ok (c3wAsset, c3wProof.plugins) ∧
    load HashedAsset c3wAcc2 0
      = Except.ok ⟨Key.hashedAsset, recomputedDigest c3wProof⟩ :=
  have h : compress_into_account_space c3wAsset (some c3wReg) c3wAcc
      = Except.ok (c3wProof, c3wAcc2) := by decide
  ⟨(c3_compress_verify_roundtrip c3wAsset (some c3wReg) c3wAcc c3wProof c3wAcc2 h).1,
    (c3_compress_verify_roundtrip c3wAsset (some c3wReg) c3wAcc c3wProof c3wAcc2
      h).2.2.2⟩

/-! ### Claim C4 -/

/-- Two permuted lists that are both strictly sorted on a key coincide. -/
theorem pairwise_lt_key_eq {α : Type} (k : α → Nat) :
    ∀ (l1 l2 : List α), l1.Perm l2 → l1.Pairwise (fun a b => k a < k b) →
      l2.Pairwise (fun a b => k a < k b) → l1 = l2 := by
  intro l1
  induction l1 with
  | nil =>
    intro l2 hp _ _
    exact (hp.symm.eq_nil).symm
  | cons a t ih =>
    intro l2 hp h1 h2
    cases l2 with
    | nil =>
      have := hp.eq_nil
      simp at this
    | cons b t2 =>
      have hab : a = b := by
        by_contra hne
        have hamem : a ∈ b :: t2 := hp.subset (List.mem_cons_self a t)
        have hbmem : b ∈ a :: t := hp.symm.subset (List.mem_cons_self b t2)
        rcases List.mem_cons.mp hamem with h | h
        · exact hne h
        · have hba : k b < k a := (List.pairwise_cons.mp h2).1 a h
          rcases List.mem_cons.mp hbmem with h3 | h3
          · exact hne h3.symm
          · have hab2 : k a < k b := (List.pairwise_cons.mp h1).1 b h3
            omega
      subst hab
      have ht : t.Perm t2 := hp.cons_inv
      rw [ih t2 ht (List.pairwise_cons.mp h1).2 (List.pairwise_cons.mp h2).2]

/-- A list sorted by index whose indices are pairwise distinct is strictly
sorted by index. -/
theorem pairwise_lt_of_sorted_nodup {l : List HashablePluginSchema}
    (hs : l.Sorted schemaLe) (hn : (l.map (fun s => s.index)).Nodup) :
    l.Pairwise (fun a b => a.index < b.index) := by
  have hne : l.Pairwise (fun a b => a.index ≠ b.index) := (List.pairwise_map).mp hn
  exact (hs.and hne).imp fun hx => lt_of_le_of_ne hx.1 hx.2

/-- Index-sorting is invariant under permutation of the input when indices
are pairwise distinct (the stable sort cannot distinguish duplicates, so
distinctness is required). -/
theorem sortedByIndex_perm_eq (l1 l2 : List HashablePluginSchema)
    (hperm : l1.Perm l2) (hnodup : (l1.map (fun s => s.index)).Nodup) :
    sortedByIndex l1 = sortedByIndex l2 := by
  have hs1 : (sortedByIndex l1).Sorted schemaLe := List.sorted_insertionSort schemaLe l1
  have hs2 : (sortedByIndex l2).Sorted schemaLe := List.sorted_insertionSort schemaLe l2
  have hp1 : (sortedByIndex l1).Perm l1 := List.perm_insertionSort schemaLe l1
  have hp2 : (sortedByIndex l2).Perm l2 := List.perm_insertionSort schemaLe l2
  have hperm12 : (sortedByIndex l1).Perm (sortedByIndex l2) :=
    hp1.trans (hperm.trans hp2.symm)
  have hn1 : ((sortedByIndex l1).map (fun s => s.index)).Nodup :=
    ((hp1.map (fun s => s.index)).nodup_iff).mpr hnodup
  have hn2 : ((sortedByIndex l2).map (fun s => s.index)).Nodup :=
    (((hp2.map (fun s => s.index)).trans
      (hperm.symm.map (fun s => s.index))).nodup_iff).mpr hnodup
  exact pairwise_lt_key_eq (fun s => s.index) _ _ hperm12
    (pairwise_lt_of_sorted_nodup hs1 hn1) (pairwise_lt_of_sorted_nodup hs2 hn2)

/-- Claim C4: given a hashed-asset cell that loads, `verify_proof` recomputes
the digest from the index-sorted plugin list and fails with
`IncorrectAssetHash` exactly when that recomputed digest differs from the
stored one; on equality it returns the proof's asset with the index-sorted
plugins; and the proof array's incidental order has no effect on the result
(for pairwise-distinct indices, which a stable sort needs to be
order-oblivious). -/
theorem c4_verify_proof_characterization (acc : AccountInfo) (proof : CompressionProof)
    (ha : HashedAsset) (hload : load HashedAsset acc 0 = Except.ok ha) :
    ((verify_proof acc proof = Except.error Err.incorrectAssetHash) ↔
      recomputedDigest proof ≠ ha.hash) ∧
    (recomputedDigest proof = ha.hash →
      verify_proof acc proof
        = Except.ok (Asset.ofProof proof, sortedByIndex proof.plugins)) ∧
    (∀ plugins2 : List HashablePluginSchema, plugins2.Perm proof.plugins →
      (proof.plugins.map (fun s => s.index)).Nodup →
      verify_proof acc { proof with plugins := plugins2 } = verify_proof acc proof) := by
  refine ⟨?_, ?_, ?_⟩
  · unfold verify_proof
    rw [hload]
    dsimp only
    by_cases hd : recomputedDigest proof = ha.hash
    · rw [if_neg (by simp [hd])]
      simp [hd]
    · rw [if_pos hd]
      simp [hd]
  · intro hd
    unfold verify_proof
    rw [hload]
    dsimp only
    rw [if_neg (by simp [hd])]
  · intro plugins2 hperm hnodup
    have hn2 : (plugins2.map (fun s => s.index)).Nodup :=
      ((hperm.map (fun s => s.index)).nodup_iff).mpr hnodup
    have hs : sortedByIndex plugins2 = sortedByIndex proof.plugins :=
      sortedByIndex_perm_eq plugins2 proof.plugins hperm hn2
    unfold verify_proof
    rw [hload]
    dsimp only
    unfold recomputedDigest
    rw [show Asset.ofProof { proof with plugins := plugins2 } = Asset.ofProof proof
      from rfl]
    rw [show ({ proof with plugins := plugins2 } : CompressionProof).plugins = plugins2
      from rfl]
    rw [hs]

def c4wHA : HashedAsset := ⟨Key.hashedAsset, 42⟩

def c4wAcc : AccountInfo := ⟨100, HashedAsset.serialize c4wHA⟩

def c4wProof : CompressionProof := ⟨⟨Key.asset, 3, UpdateAuthority.address 4, []⟩, []⟩

set_option maxRecDepth 100000 in
/-- Concrete instance of claim C4: a proof whose recomputed digest differs
from the stored digest is rejected with `IncorrectAssetHash`. -/
theorem c4_witness :
    verify_proof c4wAcc c4wProof = Except.error Err.incorrectAssetHash :=
  ((c4_verify_proof_characterization c4wAcc c4wProof c4wHA (by decide)).1).mpr
    (by decide)

end MplCore

